import Mathlib

/-!
Shallow embedding of `analyzer/ccomplexity/bblock/basicblock.go` (package
`bblock` of GoAnalysis): the basic-block registry and the control-flow-graph
building AST visitor.

Modelling conventions:
* Go source positions are resolved to 1-based line numbers by the
  `token.FileSet` collaborator; the embedding carries the resolved line
  numbers directly on AST nodes (`posLine` for `node.Pos()`, `endLine` for
  `node.End()`).
* Go pointers to `BasicBlock` are represented by the block's end line: every
  `*BasicBlock` the visitor ever stores or passes is a block residing in the
  line-keyed registry `visitor.basicBlocks`, whose `EndLine` field always
  equals its registry key, so the line is a faithful pointer surrogate.
* A nil `*BasicBlock` is `Option.none`; a nil-pointer dereference (a Go
  panic) is `Except.error VisitError.nilDeref`.
* The state additionally carries an append-only `events` log recording each
  block emission (`AddBasicBlock`) and edge addition (`AddSuccessorBlock`);
  it is pure observation, no control flow reads it.
-/

set_option maxHeartbeats 1000000
set_option autoImplicit false

namespace GoAnalysis

/-- The `BasicBlockType` enumeration of basicblock.go. -/
inductive BasicBlockType where
  | FUNCTION_ENTRY
  | IF_CONDITION
  | ELSE_CONDITION
  | SWITCH_STATEMENT
  | CASE_CLAUSE
  | SELECT_STATEMENT
  | COMM_CLAUSE
  | RETURN_STMT
  | FOR_STATEMENT
  | RANGE_STATEMENT
  | GO_STATEMENT
  | CALL_EXPRESSION
  | ELSE_BODY
  | FOR_BODY
  | EMPTY
  | START
  | EXIT
  | UNKNOWN
deriving DecidableEq, Repr

/-- The `BasicBlock` struct.  `successor` is the map from the successor's
end line to the successor block: since the successor pointers are registry
blocks keyed by their own end line, the key list is the whole content. -/
structure BasicBlock where
  number : Int
  type : BasicBlockType
  endLine : Nat
  lastSuccessor : Option Nat
  successor : List Nat
  functionName : String
deriving DecidableEq, Repr

/-- Go statements, restricted to the shape the visitor inspects.  Each
constructor carries the line numbers the visitor reads (`Pos`/`End`), the
statement lists it iterates, and nothing else.  `ifStmt`'s `elseClause`
carries the `Pos`/`End` lines of the `Else` field (`none` when the `if` has
no else clause; the visitor reads only these two positions from it and never
recurses into the else branch).  `otherStmt` stands for every statement
category the visitor has no case for, with its child statements. -/
inductive Stmt where
  | returnStmt (posLine endLine : Nat)
  | goStmt (posLine : Nat)
  | ifStmt (posLine : Nat) (body : List Stmt) (elseClause : Option (Nat × Nat))
  | forStmt (posLine endLine : Nat) (body : List Stmt)
  | switchStmt (posLine : Nat) (body : List Stmt)
  | typeSwitchStmt (posLine : Nat) (body : List Stmt)
  | selectStmt (posLine : Nat) (body : List Stmt)
  | caseClause (posLine endLine : Nat) (body : List Stmt)
  | commClause (posLine endLine : Nat) (body : List Stmt)
  | otherStmt (posLine : Nat) (children : List Stmt)

/-- Top-level declarations of a file.  `funcDecl` carries the declaration
name, `Pos`/`End` lines and the body statement list (`none` models a
bodyless declaration, whose `t.Body.List` access panics).  `genDecl` stands
for every other declaration; `nested` are the statements `ast.Walk` reaches
inside it (bodies of function literals in initializers; empty for plain
import/type/value declarations). -/
inductive Decl where
  | funcDecl (name : String) (posLine endLine : Nat) (body : Option (List Stmt))
  | genDecl (nested : List Stmt)

/-- Observation log entries: one `emit` per `AddBasicBlock` call, one `edge`
per `AddSuccessorBlock` call. -/
inductive Event where
  | emit (type : BasicBlockType) (line : Nat)
  | edge (src dst : Nat)
deriving DecidableEq, Repr

/-- The only failure of the traversal: a nil-pointer dereference panic. -/
inductive VisitError where
  | nilDeref
deriving DecidableEq, Repr

/-- The `visitor` struct: the line-keyed block registry plus the
back-references, each a nullable block pointer (= registry line). -/
structure VState where
  basicBlocks : List (Nat × BasicBlock)
  lastBlock : Option Nat
  returnBlock : Option Nat
  forBlock : Option Nat
  forBodyBlock : Option Nat
  switchBlock : Option Nat
  events : List Event
deriving DecidableEq, Repr

/-- The visitor `GetBasicBlocksFromSourceCode` starts from. -/
def initialVisitor : VState :=
  { basicBlocks := [], lastBlock := none, returnBlock := none, forBlock := none,
    forBodyBlock := none, switchBlock := none, events := [] }

/-- Registry lookup `v.basicBlocks[line]`. -/
def lookupBlock (s : VState) (line : Nat) : Option BasicBlock :=
  (s.basicBlocks.find? (fun p => p.1 == line)).map (fun p => p.2)

/-- `NewBasicBlock(-1, blockType, line)` as called by `AddBasicBlock`. -/
def newBasicBlock (blockType : BasicBlockType) (endLine : Nat) : BasicBlock :=
  { number := -1, type := blockType, endLine := endLine, lastSuccessor := none,
    successor := [], functionName := "" }

/-- Map insertion `successor[line] = block`: a repeated key overwrites (the
stored pointer is determined by the line, so the set of keys is the state). -/
def insertSucc (succ : List Nat) (line : Nat) : List Nat :=
  if line ∈ succ then succ else succ ++ [line]

/-- The effect of `AddSuccessorBlock` on the receiver block. -/
def addSuccessorInBlock (b : BasicBlock) (succLine : Nat) : BasicBlock :=
  { b with successor := insertSucc b.successor succLine, lastSuccessor := some succLine }

/-- In-place mutation of the registry block at `line` (no-op if absent;
every Go call site passes a line that is present). -/
def updateBlockAt (s : VState) (line : Nat) (f : BasicBlock → BasicBlock) : VState :=
  { s with basicBlocks := s.basicBlocks.map (fun p => if p.1 = line then (p.1, f p.2) else p) }

/-- `src.AddSuccessorBlock(dst)` where both pointers are non-nil. -/
def addSuccessorBlock (s : VState) (src dst : Nat) : VState :=
  let s1 := updateBlockAt s src (fun b => addSuccessorInBlock b dst)
  { s1 with events := s1.events ++ [Event.edge src dst] }

/-- `src.AddSuccessorBlock(dst)` where `dst` is a possibly-nil pointer: Go
dereferences `dst.EndLine` inside the loop, so a nil argument panics. -/
def addSuccessorOpt (s : VState) (src : Nat) (dst : Option Nat) : Except VisitError VState :=
  match dst with
  | none => Except.error VisitError.nilDeref
  | some d => Except.ok (addSuccessorBlock s src d)

/-- `visitor.AddBasicBlock`: build the fresh block; if the line is already
registered, `UpdateBasicBlock` copies every field of the fresh block onto
the existing registry object and that object is returned, otherwise the
fresh block is registered.  `v.lastBlock` always ends up pointing at the
registry block for `line`.  Returns the state and the returned pointer. -/
def addBasicBlock (s : VState) (blockType : BasicBlockType) (line : Nat) : VState × Nat :=
  let nb := newBasicBlock blockType line
  match lookupBlock s line with
  | some _ =>
      let s1 := updateBlockAt s line (fun _ => nb)
      ({ s1 with lastBlock := some line, events := s1.events ++ [Event.emit blockType line] },
       line)
  | none =>
      ({ s with basicBlocks := s.basicBlocks ++ [(line, nb)],
                lastBlock := some line,
                events := s.events ++ [Event.emit blockType line] }, line)

/-- Current `Type` of the block a pointer refers to. -/
def typeAt (s : VState) (line : Nat) : Option BasicBlockType :=
  (lookupBlock s line).map (fun b => b.type)

/-- `funcDeclBlock.FunctionName = t.Name.Name`. -/
def setFunctionName (s : VState) (line : Nat) (name : String) : VState :=
  updateBlockAt s line (fun b => { b with functionName := name })

/-- `stmt.Pos()` resolved to a line. -/
def stmtPos : Stmt → Nat
  | Stmt.returnStmt p _ => p
  | Stmt.goStmt p => p
  | Stmt.ifStmt p _ _ => p
  | Stmt.forStmt p _ _ => p
  | Stmt.switchStmt p _ => p
  | Stmt.typeSwitchStmt p _ => p
  | Stmt.selectStmt p _ => p
  | Stmt.caseClause p _ _ => p
  | Stmt.commClause p _ _ => p
  | Stmt.otherStmt p _ => p

/-- `GetBasicBlockTypeFromStmt`: scan the statement list in order for the
first return statement, case clause or switch statement; `(UNKNOWN, nil)`
when none occurs (`some` exactly when the result is not `UNKNOWN`). -/
def getBasicBlockTypeFromStmt : List Stmt → BasicBlockType × Option Stmt
  | [] => (BasicBlockType.UNKNOWN, none)
  | st :: rest =>
      match st with
      | Stmt.returnStmt p e => (BasicBlockType.RETURN_STMT, some (Stmt.returnStmt p e))
      | Stmt.caseClause p e b => (BasicBlockType.CASE_CLAUSE, some (Stmt.caseClause p e b))
      | Stmt.switchStmt p b => (BasicBlockType.SWITCH_STATEMENT, some (Stmt.switchStmt p b))
      | _ => getBasicBlockTypeFromStmt rest

/-- Ascending sort of a key list (realizes `sort.Ints`). -/
def sortNat (l : List Nat) : List Nat := List.insertionSort (fun a b => a ≤ b) l

/-- `GetSuccessorBlocks`: the successor pointers in ascending end-line order. -/
def getSuccessorLines (b : BasicBlock) : List Nat := sortNat b.successor

/-- The `containsForStatement` scan of the case/comm-clause tail: does any
current successor of the block at `line` currently have type `FOR_STATEMENT`? -/
def containsForStatement (s : VState) (line : Nat) : Bool :=
  match lookupBlock s line with
  | some b => (getSuccessorLines b).any (fun l => typeAt s l == some BasicBlockType.FOR_STATEMENT)
  | none => false

mutual

/-- `visitor.Visit` on one statement node, as reached by the direct
`v.Visit(s)` calls the handlers make (those calls do not descend into
children of nodes the switch has no case for). -/
def visitStmt (s : VState) : Stmt → Except VisitError VState
  | Stmt.returnStmt p _ =>
      let r := addBasicBlock s BasicBlockType.RETURN_STMT p
      let s2 := { r.1 with returnBlock := some r.2 }
      match s2.switchBlock with
      | some sw => Except.ok (addSuccessorBlock s2 sw r.2)
      | none => Except.ok s2
  | Stmt.goStmt p =>
      Except.ok (addBasicBlock s BasicBlockType.GO_STATEMENT p).1
  | Stmt.ifStmt p body elseClause =>
      let r1 := addBasicBlock s BasicBlockType.IF_CONDITION p
      match elseClause with
      | none => Except.error VisitError.nilDeref
      | some pe =>
          let r2 := addBasicBlock r1.1 BasicBlockType.ELSE_CONDITION pe.1
          let r3 := addBasicBlock r2.1 BasicBlockType.ELSE_BODY pe.2
          let s4 := addSuccessorBlock r3.1 r1.2 r3.2
          match visitList s4 body with
          | Except.error er => Except.error er
          | Except.ok s5 =>
              match s5.returnBlock with
              | some rb =>
                  Except.ok (addSuccessorBlock (addSuccessorBlock s5 r2.2 rb) r3.2 rb)
              | none => Except.ok s5
  | Stmt.forStmt p e body =>
      let r1 := addBasicBlock s BasicBlockType.FOR_STATEMENT p
      let s2 := { r1.1 with forBlock := some r1.2 }
      let s3 := match s2.returnBlock with
        | some rb => addSuccessorBlock s2 r1.2 rb
        | none => s2
      let tmpReturn := s3.returnBlock
      let s4 := { s3 with returnBlock := s3.forBlock }
      match visitList s4 body with
      | Except.error er => Except.error er
      | Except.ok s5 =>
          let s6 := { s5 with returnBlock := tmpReturn }
          match s6.lastBlock with
          | none => Except.error VisitError.nilDeref
          | some lb =>
              let s7 := if typeAt s6 lb = some BasicBlockType.FOR_STATEMENT
                then (addBasicBlock s6 BasicBlockType.FOR_BODY e).1
                else s6
              match s7.lastBlock with
              | none => Except.error VisitError.nilDeref
              | some lb2 =>
                  let stepped :=
                    if typeAt s7 lb2 = some BasicBlockType.RETURN_STMT
                    then Except.ok s7
                    else addSuccessorOpt s7 lb2 s7.forBlock
                  match stepped with
                  | Except.error er => Except.error er
                  | Except.ok s8 => Except.ok { s8 with forBlock := none }
  | Stmt.switchStmt p body =>
      let r1 := addBasicBlock s BasicBlockType.SWITCH_STATEMENT p
      let s2 := { r1.1 with switchBlock := some r1.2 }
      let s3 := match s2.forBlock with
        | some fb => addSuccessorBlock (addSuccessorBlock s2 fb r1.2) r1.2 fb
        | none => s2
      let s4 := match s3.returnBlock with
        | some rb => addSuccessorBlock s3 r1.2 rb
        | none => s3
      visitList s4 body
  | Stmt.typeSwitchStmt p body =>
      let r1 := addBasicBlock s BasicBlockType.SWITCH_STATEMENT p
      let s2 := { r1.1 with switchBlock := some r1.2 }
      let s3 := match s2.forBlock with
        | some fb => addSuccessorBlock (addSuccessorBlock s2 fb r1.2) r1.2 fb
        | none => s2
      visitList s3 body
  | Stmt.selectStmt p body =>
      let r1 := addBasicBlock s BasicBlockType.SELECT_STATEMENT p
      let s2 := { r1.1 with switchBlock := some r1.2 }
      let s3 := match s2.forBlock with
        | some fb => addSuccessorBlock (addSuccessorBlock s2 fb r1.2) r1.2 fb
        | none => s2
      visitList s3 body
  | Stmt.caseClause _ e body => visitClause s BasicBlockType.CASE_CLAUSE e body
  | Stmt.commClause _ e body => visitClause s BasicBlockType.COMM_CLAUSE e body
  | Stmt.otherStmt _ _ => Except.ok s
termination_by st => (sizeOf st, 0)

/-- The shared body of the `*ast.CaseClause` and `*ast.CommClause` arms
(they are textual duplicates in the source, differing only in the generic
block type used when the body scan finds nothing). -/
def visitClause (s : VState) (genericType : BasicBlockType) (clauseEnd : Nat)
    (body : List Stmt) : Except VisitError VState :=
  let r1 := match getBasicBlockTypeFromStmt body with
    | (bt, some st) => addBasicBlock s bt (stmtPos st)
    | (_, none) => addBasicBlock s genericType clauseEnd
  let s2 := match r1.1.forBlock with
    | some fb => addSuccessorBlock r1.1 r1.2 fb
    | none => r1.1
  let s3 := match s2.switchBlock with
    | some sw => addSuccessorBlock s2 sw r1.2
    | none => s2
  let s4 := match s3.returnBlock with
    | some rb => addSuccessorBlock s3 r1.2 rb
    | none => s3
  let tmpSwitch := s4.switchBlock
  let tmpReturn := s4.returnBlock
  match visitList s4 body with
  | Except.error er => Except.error er
  | Except.ok s5 =>
      let s6 := { s5 with switchBlock := tmpSwitch, returnBlock := tmpReturn }
      match s6.returnBlock with
      | some rb =>
          if typeAt s6 r1.2 ≠ some BasicBlockType.RETURN_STMT ∧
             typeAt s6 r1.2 ≠ some BasicBlockType.SWITCH_STATEMENT then
            if containsForStatement s6 r1.2 then Except.ok s6
            else Except.ok (addSuccessorBlock s6 r1.2 rb)
          else Except.ok s6
      | none => Except.ok s6
termination_by (sizeOf body, 1)

/-- The `for _, s := range ... { v.Visit(s) }` loops of the handlers. -/
def visitList (s : VState) : List Stmt → Except VisitError VState
  | [] => Except.ok s
  | st :: rest =>
      match visitStmt s st with
      | Except.error er => Except.error er
      | Except.ok s1 => visitList s1 rest
termination_by l => (sizeOf l, 0)

/-- `ast.Walk` on one statement: run `Visit`; when it returns the visitor
itself (every category except function declarations, loops, switches and
selects, which return nil), walk the node's children too. -/
def walkStmt (s : VState) (st : Stmt) : Except VisitError VState :=
  match visitStmt s st with
  | Except.error er => Except.error er
  | Except.ok s1 =>
      match st with
      | Stmt.ifStmt _ body _ => walkList s1 body
      | Stmt.caseClause _ _ body => walkList s1 body
      | Stmt.commClause _ _ body => walkList s1 body
      | Stmt.otherStmt _ children => walkList s1 children
      | _ => Except.ok s1
termination_by (sizeOf st, 2)

/-- `ast.Walk` over a statement list. -/
def walkList (s : VState) : List Stmt → Except VisitError VState
  | [] => Except.ok s
  | st :: rest =>
      match walkStmt s st with
      | Except.error er => Except.error er
      | Except.ok s1 => walkList s1 rest
termination_by l => (sizeOf l, 3)

end

/-- The `*ast.FuncDecl` arm of `visitor.Visit`: emit the entry block, set
its function name, pre-scan the body's top level for return statements
(each emits a `RETURN_STMT` block at the statement's end and rebinds
`v.returnBlock`), synthesize the implicit return at the declaration's end
when `v.returnBlock` is still nil, visit every body statement, and clear
`v.returnBlock`.  A nil body panics at `t.Body.List`. -/
def visitFuncDecl (s : VState) (name : String) (posLine endLine : Nat)
    (body : Option (List Stmt)) : Except VisitError VState :=
  let r1 := addBasicBlock s BasicBlockType.FUNCTION_ENTRY posLine
  let s2 := setFunctionName r1.1 r1.2 name
  match body with
  | none => Except.error VisitError.nilDeref
  | some stmts =>
      let s3 := stmts.foldl (fun acc st =>
          match st with
          | Stmt.returnStmt _ e =>
              let r := addBasicBlock acc BasicBlockType.RETURN_STMT e
              { r.1 with returnBlock := some r.2 }
          | _ => acc) s2
      let s4 := if s3.returnBlock = none then
          let r := addBasicBlock s3 BasicBlockType.RETURN_STMT endLine
          { r.1 with returnBlock := some r.2 }
        else s3
      match visitList s4 stmts with
      | Except.error er => Except.error er
      | Except.ok s5 => Except.ok { s5 with returnBlock := none }

/-- `ast.Walk` on one top-level declaration: function declarations run
their handler (which returns nil, stopping the walk); every other
declaration is a no-op whose children are walked. -/
def walkDecl (s : VState) : Decl → Except VisitError VState
  | Decl.funcDecl name p e body => visitFuncDecl s name p e body
  | Decl.genDecl nested => walkList s nested

/-- `ast.Walk(visitor, file)`: visit the declarations in order. -/
def walkFile (s : VState) : List Decl → Except VisitError VState
  | [] => Except.ok s
  | d :: ds =>
      match walkDecl s d with
      | Except.error er => Except.error er
      | Except.ok s1 => walkFile s1 ds

/-- One step of `visitor.GetBasicBlocks`: walk the sorted keys, copying the
registry block for each and assigning `Number` to its rank. -/
def numberBlocks (s : VState) : Nat → List Nat → List BasicBlock
  | _, [] => []
  | i, k :: ks =>
      match lookupBlock s k with
      | some b => { b with number := Int.ofNat i } :: numberBlocks s (i + 1) ks
      | none => numberBlocks s (i + 1) ks

/-- `visitor.GetBasicBlocks`: the registry in ascending end-line order with
`Number` assigned as the rank. -/
def getBasicBlocks (s : VState) : List BasicBlock :=
  numberBlocks s 0 (sortNat (s.basicBlocks.map (fun p => p.1)))

/-- The type filter of the default sequential-edge pass. -/
def isSequentialSource (t : BasicBlockType) : Bool :=
  t != BasicBlockType.FOR_BODY && t != BasicBlockType.ELSE_CONDITION &&
  t != BasicBlockType.ELSE_BODY && t != BasicBlockType.COMM_CLAUSE &&
  t != BasicBlockType.CASE_CLAUSE && t != BasicBlockType.RETURN_STMT

/-- The final pass of `GetBasicBlocksFromSourceCode`: every block except
the last gains an edge to the immediately following block unless its type
is filtered out. -/
def addSequentialEdges : List BasicBlock → List BasicBlock
  | [] => []
  | [b] => [b]
  | b :: b2 :: rest =>
      (if isSequentialSource b.type then addSuccessorInBlock b b2.endLine else b) ::
      addSequentialEdges (b2 :: rest)

/-- `GetBasicBlocksFromSourceCode` after the parse step: walk the file from
a fresh visitor, finalize the registry, run the sequential-edge pass. -/
def getBasicBlocksFromAST (decls : List Decl) : Except VisitError (List BasicBlock) :=
  match walkFile initialVisitor decls with
  | Except.error er => Except.error er
  | Except.ok s => Except.ok (addSequentialEdges (getBasicBlocks s))

/-- The registry's key list (the end lines holding a block). -/
def blockKeys (s : VState) : List Nat := s.basicBlocks.map (fun p => p.1)

/-- A nullable block pointer is valid when it refers to a registered line. -/
def optRef (ks : List Nat) : Option Nat → Prop
  | none => True
  | some l => l ∈ ks

/-- Registry/visitor well-formedness: every block's `EndLine` equals its
registry key, every successor pointer and every back-reference refers to a
registered line. -/
def Inv (s : VState) : Prop :=
  (∀ p ∈ s.basicBlocks, p.2.endLine = p.1) ∧
  (∀ p ∈ s.basicBlocks, ∀ l ∈ p.2.successor, l ∈ blockKeys s) ∧
  optRef (blockKeys s) s.lastBlock ∧
  optRef (blockKeys s) s.returnBlock ∧
  optRef (blockKeys s) s.forBlock ∧
  optRef (blockKeys s) s.switchBlock

/-- What one traversal step guarantees: registered lines survive, the event
log only grows, well-formedness is preserved. -/
def StepOK (s s' : VState) : Prop :=
  blockKeys s ⊆ blockKeys s' ∧ (∃ d, s'.events = s.events ++ d) ∧ (Inv s → Inv s')

theorem blockKeys_updateBlockAt (s : VState) (l : Nat) (f : BasicBlock → BasicBlock) :
    blockKeys (updateBlockAt s l f) = blockKeys s := by
  simp only [updateBlockAt, blockKeys, List.map_map]
  apply List.map_congr_left
  intro p _
  by_cases hp : p.1 = l <;> simp [hp]

theorem blockKeys_addSuccessorBlock (s : VState) (a b : Nat) :
    blockKeys (addSuccessorBlock s a b) = blockKeys s := by
  have h := blockKeys_updateBlockAt s a (fun x => addSuccessorInBlock x b)
  simp only [blockKeys] at h ⊢
  simpa [addSuccessorBlock] using h

theorem events_addSuccessorBlock (s : VState) (a b : Nat) :
    (addSuccessorBlock s a b).events = s.events ++ [Event.edge a b] := rfl

theorem refs_addSuccessorBlock (s : VState) (a b : Nat) :
    (addSuccessorBlock s a b).lastBlock = s.lastBlock ∧
    (addSuccessorBlock s a b).returnBlock = s.returnBlock ∧
    (addSuccessorBlock s a b).forBlock = s.forBlock ∧
    (addSuccessorBlock s a b).switchBlock = s.switchBlock :=
  ⟨rfl, rfl, rfl, rfl⟩

theorem addBasicBlock_snd (s : VState) (bt : BasicBlockType) (l : Nat) :
    (addBasicBlock s bt l).2 = l := by
  unfold addBasicBlock
  split <;> rfl

theorem events_addBasicBlock (s : VState) (bt : BasicBlockType) (l : Nat) :
    ((addBasicBlock s bt l).1).events = s.events ++ [Event.emit bt l] := by
  unfold addBasicBlock
  split <;> rfl

theorem refs_addBasicBlock (s : VState) (bt : BasicBlockType) (l : Nat) :
    ((addBasicBlock s bt l).1).returnBlock = s.returnBlock ∧
    ((addBasicBlock s bt l).1).forBlock = s.forBlock ∧
    ((addBasicBlock s bt l).1).switchBlock = s.switchBlock ∧
    ((addBasicBlock s bt l).1).lastBlock = some l := by
  unfold addBasicBlock
  split <;> exact ⟨rfl, rfl, rfl, rfl⟩

theorem mem_blockKeys_of_lookup {s : VState} {l : Nat} {b : BasicBlock}
    (h : lookupBlock s l = some b) : l ∈ blockKeys s := by
  unfold lookupBlock at h
  cases hf : s.basicBlocks.find? (fun p => p.1 == l) with
  | none => rw [hf] at h; simp at h
  | some p =>
      have hm := List.mem_of_find?_eq_some hf
      have hp := List.find?_some hf
      have hpl : p.1 = l := by simpa using hp
      exact List.mem_map.mpr ⟨p, hm, hpl⟩

theorem blockKeys_addBasicBlock (s : VState) (bt : BasicBlockType) (l : Nat) :
    blockKeys (addBasicBlock s bt l).1 =
      (if (lookupBlock s l).isSome then blockKeys s else blockKeys s ++ [l]) := by
  unfold addBasicBlock
  split
  · next b heq =>
      have h := blockKeys_updateBlockAt s l (fun _ => newBasicBlock bt l)
      simp only [blockKeys] at h ⊢
      simpa [heq] using h
  · next heq =>
      simp [blockKeys, heq]

theorem blockKeys_addBasicBlock_sub (s : VState) (bt : BasicBlockType) (l : Nat) :
    blockKeys s ⊆ blockKeys (addBasicBlock s bt l).1 := by
  rw [blockKeys_addBasicBlock]
  split
  · exact fun x hx => hx
  · exact fun x hx => List.mem_append_left _ hx

theorem mem_blockKeys_addBasicBlock (s : VState) (bt : BasicBlockType) (l : Nat) :
    l ∈ blockKeys (addBasicBlock s bt l).1 := by
  rw [blockKeys_addBasicBlock]
  split
  · next h =>
      cases hl : lookupBlock s l with
      | none => rw [hl] at h; simp at h
      | some b => exact mem_blockKeys_of_lookup hl
  · simp

theorem mem_insertSucc {succ : List Nat} {d x : Nat} (h : x ∈ insertSucc succ d) :
    x ∈ succ ∨ x = d := by
  unfold insertSucc at h
  split at h
  · exact Or.inl h
  · rcases List.mem_append.mp h with h1 | h1
    · exact Or.inl h1
    · simp at h1; exact Or.inr h1

theorem optRef_mono {ks ks' : List Nat} {o : Option Nat} (h : optRef ks o)
    (hsub : ks ⊆ ks') : optRef ks' o := by
  cases o with
  | none => trivial
  | some l => exact hsub h

theorem basicBlocks_addSuccessorBlock (s : VState) (a b : Nat) :
    (addSuccessorBlock s a b).basicBlocks =
      s.basicBlocks.map (fun p => if p.1 = a then (p.1, addSuccessorInBlock p.2 b) else p) := rfl

theorem endLine_addSuccessorInBlock (b : BasicBlock) (d : Nat) :
    (addSuccessorInBlock b d).endLine = b.endLine := rfl

theorem inv_addSuccessorBlock {s : VState} {a b : Nat} (h : Inv s)
    (hb : b ∈ blockKeys s) : Inv (addSuccessorBlock s a b) := by
  obtain ⟨hline, hsucc, hlast, hret, hfor, hsw⟩ := h
  have hkeys := blockKeys_addSuccessorBlock s a b
  refine ⟨?_, ?_, ?_, ?_, ?_, ?_⟩
  · intro p hp
    rw [basicBlocks_addSuccessorBlock] at hp
    obtain ⟨q, hq, hqe⟩ := List.mem_map.mp hp
    by_cases hqa : q.1 = a
    · simp only [hqa, if_pos rfl] at hqe
      rw [← hqe]
      simpa [endLine_addSuccessorInBlock] using (hqa ▸ hline q hq)
    · rw [if_neg hqa] at hqe
      exact hqe ▸ hline q hq
  · intro p hp l hl
    rw [hkeys]
    rw [basicBlocks_addSuccessorBlock] at hp
    obtain ⟨q, hq, hqe⟩ := List.mem_map.mp hp
    by_cases hqa : q.1 = a
    · simp only [hqa, if_pos rfl] at hqe
      rw [← hqe] at hl
      rcases mem_insertSucc hl with h1 | h1
      · exact hsucc q hq l h1
      · exact h1 ▸ hb
    · rw [if_neg hqa] at hqe
      exact hsucc q hq l (hqe ▸ hl)
  · exact optRef_mono hlast (by rw [hkeys]; exact fun x hx => hx)
  · exact optRef_mono hret (by rw [hkeys]; exact fun x hx => hx)
  · exact optRef_mono hfor (by rw [hkeys]; exact fun x hx => hx)
  · exact optRef_mono hsw (by rw [hkeys]; exact fun x hx => hx)

theorem basicBlocks_addBasicBlock (s : VState) (bt : BasicBlockType) (l : Nat) :
    ((addBasicBlock s bt l).1).basicBlocks =
      match lookupBlock s l with
      | some _ => s.basicBlocks.map (fun p => if p.1 = l then (p.1, newBasicBlock bt l) else p)
      | none => s.basicBlocks ++ [(l, newBasicBlock bt l)] := by
  unfold addBasicBlock
  cases h : lookupBlock s l <;> simp [h, updateBlockAt]

theorem inv_addBasicBlock {s : VState} (bt : BasicBlockType) (l : Nat) (h : Inv s) :
    Inv (addBasicBlock s bt l).1 := by
  obtain ⟨hline, hsucc, hlast, hret, hfor, hsw⟩ := h
  have hsub := blockKeys_addBasicBlock_sub s bt l
  have hmem := mem_blockKeys_addBasicBlock s bt l
  have hbb := basicBlocks_addBasicBlock s bt l
  obtain ⟨h1, h2, h3, h4⟩ := refs_addBasicBlock s bt l
  refine ⟨?_, ?_, ?_, ?_, ?_, ?_⟩
  · intro p hp
    rw [hbb] at hp
    cases hl : lookupBlock s l with
    | some b =>
        rw [hl] at hp
        obtain ⟨q, hq, hqe⟩ := List.mem_map.mp hp
        by_cases hqa : q.1 = l
        · rw [if_pos hqa] at hqe
          rw [← hqe]
          simp [newBasicBlock, hqa]
        · rw [if_neg hqa] at hqe
          exact hqe ▸ hline q hq
    | none =>
        rw [hl] at hp
        rcases List.mem_append.mp hp with h5 | h5
        · exact hline p h5
        · simp at h5
          rw [h5]
          rfl
  · intro p hp ln hln
    rw [hbb] at hp
    cases hl : lookupBlock s l with
    | some b =>
        rw [hl] at hp
        obtain ⟨q, hq, hqe⟩ := List.mem_map.mp hp
        by_cases hqa : q.1 = l
        · rw [if_pos hqa] at hqe
          rw [← hqe] at hln
          simp [newBasicBlock] at hln
        · rw [if_neg hqa] at hqe
          exact hsub (hsucc q hq ln (hqe ▸ hln))
    | none =>
        rw [hl] at hp
        rcases List.mem_append.mp hp with h5 | h5
        · exact hsub (hsucc p h5 ln hln)
        · simp at h5
          rw [h5] at hln
          simp [newBasicBlock] at hln
  · rw [h4]
    exact hmem
  · rw [h1]
    exact optRef_mono hret hsub
  · rw [h2]
    exact optRef_mono hfor hsub
  · rw [h3]
    exact optRef_mono hsw hsub

theorem stepOK_refl (s : VState) : StepOK s s :=
  ⟨fun _ hx => hx, ⟨[], by simp⟩, fun h => h⟩

theorem stepOK_trans {a b c : VState} (h1 : StepOK a b) (h2 : StepOK b c) : StepOK a c := by
  obtain ⟨k1, ⟨d1, e1⟩, i1⟩ := h1
  obtain ⟨k2, ⟨d2, e2⟩, i2⟩ := h2
  exact ⟨fun x hx => k2 (k1 hx), ⟨d1 ++ d2, by rw [e2, e1, List.append_assoc]⟩,
    fun h => i2 (i1 h)⟩

theorem stepOK_addBasicBlock (s : VState) (bt : BasicBlockType) (l : Nat) :
    StepOK s (addBasicBlock s bt l).1 :=
  ⟨blockKeys_addBasicBlock_sub s bt l, ⟨[Event.emit bt l], events_addBasicBlock s bt l⟩,
    inv_addBasicBlock bt l⟩

theorem stepOK_addSuccessorBlock (s : VState) (a b : Nat)
    (hb : Inv s → b ∈ blockKeys s) : StepOK s (addSuccessorBlock s a b) :=
  ⟨by rw [blockKeys_addSuccessorBlock]; exact fun x hx => hx,
    ⟨[Event.edge a b], events_addSuccessorBlock s a b⟩,
    fun h => inv_addSuccessorBlock h (hb h)⟩

theorem stepOK_setReturnBlock (s : VState) (o : Option Nat)
    (ho : Inv s → optRef (blockKeys s) o) : StepOK s { s with returnBlock := o } := by
  refine ⟨fun x hx => hx, ⟨[], by simp⟩, ?_⟩
  intro h
  exact ⟨h.1, h.2.1, h.2.2.1, ho h, h.2.2.2.2.1, h.2.2.2.2.2⟩

theorem stepOK_setForBlock (s : VState) (o : Option Nat)
    (ho : Inv s → optRef (blockKeys s) o) : StepOK s { s with forBlock := o } := by
  refine ⟨fun x hx => hx, ⟨[], by simp⟩, ?_⟩
  intro h
  exact ⟨h.1, h.2.1, h.2.2.1, h.2.2.2.1, ho h, h.2.2.2.2.2⟩

theorem stepOK_setSwitchBlock (s : VState) (o : Option Nat)
    (ho : Inv s → optRef (blockKeys s) o) : StepOK s { s with switchBlock := o } := by
  refine ⟨fun x hx => hx, ⟨[], by simp⟩, ?_⟩
  intro h
  exact ⟨h.1, h.2.1, h.2.2.1, h.2.2.2.1, h.2.2.2.2.1, ho h⟩

theorem stepOK_setSwitchReturn (s : VState) (o1 o2 : Option Nat)
    (h1 : Inv s → optRef (blockKeys s) o1) (h2 : Inv s → optRef (blockKeys s) o2) :
    StepOK s { s with switchBlock := o1, returnBlock := o2 } := by
  refine ⟨fun x hx => hx, ⟨[], by simp⟩, ?_⟩
  intro h
  exact ⟨h.1, h.2.1, h.2.2.1, h2 h, h.2.2.2.2.1, h1 h⟩

theorem stepOK_restoreReturn {s a b : VState} (hsa : StepOK s a) (hab : StepOK a b)
    (o : Option Nat) (ho : Inv a → optRef (blockKeys a) o) :
    StepOK s { b with returnBlock := o } := by
  refine ⟨(stepOK_trans hsa hab).1, (stepOK_trans hsa hab).2.1, ?_⟩
  intro hi
  have hia := hsa.2.2 hi
  have hib := hab.2.2 hia
  have hor := optRef_mono (ho hia) hab.1
  exact ⟨hib.1, hib.2.1, hib.2.2.1, hor, hib.2.2.2.2.1, hib.2.2.2.2.2⟩

theorem stepOK_restoreSwitchReturn {s a b : VState} (hsa : StepOK s a) (hab : StepOK a b)
    (o1 o2 : Option Nat) (h1 : Inv a → optRef (blockKeys a) o1)
    (h2 : Inv a → optRef (blockKeys a) o2) :
    StepOK s { b with switchBlock := o1, returnBlock := o2 } := by
  refine ⟨(stepOK_trans hsa hab).1, (stepOK_trans hsa hab).2.1, ?_⟩
  intro hi
  have hia := hsa.2.2 hi
  have hib := hab.2.2 hia
  have ho1 := optRef_mono (h1 hia) hab.1
  have ho2 := optRef_mono (h2 hia) hab.1
  exact ⟨hib.1, hib.2.1, hib.2.2.1, ho2, hib.2.2.2.2.1, ho1⟩

theorem ref_mem_ret {s : VState} {d : Nat} (h : s.returnBlock = some d) (hi : Inv s) :
    d ∈ blockKeys s := by
  have hr := hi.2.2.2.1
  rw [h] at hr
  exact hr

theorem ref_mem_for {s : VState} {d : Nat} (h : s.forBlock = some d) (hi : Inv s) :
    d ∈ blockKeys s := by
  have hr := hi.2.2.2.2.1
  rw [h] at hr
  exact hr

theorem ref_mem_switch {s : VState} {d : Nat} (h : s.switchBlock = some d) (hi : Inv s) :
    d ∈ blockKeys s := by
  have hr := hi.2.2.2.2.2
  rw [h] at hr
  exact hr

theorem ref_mem_last {s : VState} {d : Nat} (h : s.lastBlock = some d) (hi : Inv s) :
    d ∈ blockKeys s := by
  have hr := hi.2.2.1
  rw [h] at hr
  exact hr

theorem stepOK_setFunctionName (s : VState) (l : Nat) (nm : String) :
    StepOK s (setFunctionName s l nm) := by
  refine ⟨?_, ⟨[], by simp [setFunctionName, updateBlockAt]⟩, ?_⟩
  · rw [setFunctionName, blockKeys_updateBlockAt]
    exact fun x hx => hx
  · intro h
    obtain ⟨hline, hsucc, hlast, hret, hfor, hsw⟩ := h
    have hkeys := blockKeys_updateBlockAt s l (fun b => { b with functionName := nm })
    refine ⟨?_, ?_, ?_, ?_, ?_, ?_⟩
    · intro p hp
      simp only [setFunctionName, updateBlockAt] at hp
      obtain ⟨q, hq, hqe⟩ := List.mem_map.mp hp
      by_cases hqa : q.1 = l
      · simp only [hqa, if_pos rfl] at hqe
        rw [← hqe]
        simpa using (hqa ▸ hline q hq)
      · rw [if_neg hqa] at hqe
        exact hqe ▸ hline q hq
    · intro p hp ln hln
      rw [setFunctionName, hkeys]
      simp only [setFunctionName, updateBlockAt] at hp
      obtain ⟨q, hq, hqe⟩ := List.mem_map.mp hp
      by_cases hqa : q.1 = l
      · simp only [hqa, if_pos rfl] at hqe
        rw [← hqe] at hln
        exact hsucc q hq ln hln
      · rw [if_neg hqa] at hqe
        exact hsucc q hq ln (hqe ▸ hln)
    · exact optRef_mono hlast (by rw [setFunctionName, hkeys]; exact fun x hx => hx)
    · exact optRef_mono hret (by rw [setFunctionName, hkeys]; exact fun x hx => hx)
    · exact optRef_mono hfor (by rw [setFunctionName, hkeys]; exact fun x hx => hx)
    · exact optRef_mono hsw (by rw [setFunctionName, hkeys]; exact fun x hx => hx)

theorem returnBlock_addSuccessorBlock (s : VState) (a b : Nat) :
    (addSuccessorBlock s a b).returnBlock = s.returnBlock := rfl

theorem forBlock_addSuccessorBlock (s : VState) (a b : Nat) :
    (addSuccessorBlock s a b).forBlock = s.forBlock := rfl

theorem switchBlock_addSuccessorBlock (s : VState) (a b : Nat) :
    (addSuccessorBlock s a b).switchBlock = s.switchBlock := rfl

theorem lastBlock_addSuccessorBlock (s : VState) (a b : Nat) :
    (addSuccessorBlock s a b).lastBlock = s.lastBlock := rfl

theorem returnBlock_addBasicBlock (s : VState) (bt : BasicBlockType) (l : Nat) :
    ((addBasicBlock s bt l).1).returnBlock = s.returnBlock := (refs_addBasicBlock s bt l).1

theorem forBlock_addBasicBlock (s : VState) (bt : BasicBlockType) (l : Nat) :
    ((addBasicBlock s bt l).1).forBlock = s.forBlock := (refs_addBasicBlock s bt l).2.1

theorem switchBlock_addBasicBlock (s : VState) (bt : BasicBlockType) (l : Nat) :
    ((addBasicBlock s bt l).1).switchBlock = s.switchBlock := (refs_addBasicBlock s bt l).2.2.1

theorem lastBlock_addBasicBlock (s : VState) (bt : BasicBlockType) (l : Nat) :
    ((addBasicBlock s bt l).1).lastBlock = some l := (refs_addBasicBlock s bt l).2.2.2

theorem addBasicBlock_snd_mem (s : VState) (bt : BasicBlockType) (l : Nat) :
    (addBasicBlock s bt l).2 ∈ blockKeys (addBasicBlock s bt l).1 := by
  rw [addBasicBlock_snd]
  exact mem_blockKeys_addBasicBlock s bt l

theorem stepOK_returnStmt (s : VState) (p e : Nat) :
    ∀ s', visitStmt s (Stmt.returnStmt p e) = Except.ok s' → StepOK s s' := by
  intro s' h
  simp only [visitStmt] at h
  have hmem := addBasicBlock_snd_mem s BasicBlockType.RETURN_STMT p
  have h12 : StepOK s { (addBasicBlock s BasicBlockType.RETURN_STMT p).1 with
      returnBlock := some (addBasicBlock s BasicBlockType.RETURN_STMT p).2 } :=
    stepOK_trans (stepOK_addBasicBlock s _ p) (stepOK_setReturnBlock _ _ (fun _ => hmem))
  split at h
  · next sw hsw =>
      cases h
      exact stepOK_trans h12 (stepOK_addSuccessorBlock _ _ _ (fun _ => hmem))
  · cases h
    exact h12

theorem stepOK_goStmt (s : VState) (p : Nat) :
    ∀ s', visitStmt s (Stmt.goStmt p) = Except.ok s' → StepOK s s' := by
  intro s' h
  simp only [visitStmt] at h
  cases h
  exact stepOK_addBasicBlock s _ p

theorem stepOK_ifStmt (s : VState) (p : Nat) (body : List Stmt) (els : Option (Nat × Nat))
    (hbody : ∀ t t', visitList t body = Except.ok t' → StepOK t t') :
    ∀ s', visitStmt s (Stmt.ifStmt p body els) = Except.ok s' → StepOK s s' := by
  intro s' h
  cases els with
  | none => simp [visitStmt] at h
  | some pe =>
      simp only [visitStmt] at h
      have hpro : StepOK s (addSuccessorBlock
          (addBasicBlock (addBasicBlock (addBasicBlock s BasicBlockType.IF_CONDITION p).1
              BasicBlockType.ELSE_CONDITION pe.1).1 BasicBlockType.ELSE_BODY pe.2).1
          (addBasicBlock s BasicBlockType.IF_CONDITION p).2
          (addBasicBlock (addBasicBlock (addBasicBlock s BasicBlockType.IF_CONDITION p).1
              BasicBlockType.ELSE_CONDITION pe.1).1 BasicBlockType.ELSE_BODY pe.2).2) := by
        refine stepOK_trans (stepOK_addBasicBlock s BasicBlockType.IF_CONDITION p) ?_
        refine stepOK_trans (stepOK_addBasicBlock _ BasicBlockType.ELSE_CONDITION pe.1) ?_
        refine stepOK_trans (stepOK_addBasicBlock _ BasicBlockType.ELSE_BODY pe.2) ?_
        exact stepOK_addSuccessorBlock _ _ _ (fun _ => addBasicBlock_snd_mem _ _ pe.2)
      split at h
      · next er herr => exact absurd h (by simp)
      · next s5 hok =>
          have hchain := stepOK_trans hpro (hbody _ _ hok)
          split at h
          · next rb hsrb =>
              cases h
              refine stepOK_trans hchain ?_
              refine stepOK_trans (stepOK_addSuccessorBlock s5
                (addBasicBlock (addBasicBlock s BasicBlockType.IF_CONDITION p).1
                  BasicBlockType.ELSE_CONDITION pe.1).2 rb
                (fun hi => ref_mem_ret hsrb hi)) ?_
              exact stepOK_addSuccessorBlock _ _ rb (fun hi => ref_mem_ret hsrb hi)
          · cases h
            exact hchain

theorem stepOK_for_tail {s s6 : VState} (e : Nat) (hs6 : StepOK s s6) :
    ∀ s', (match s6.lastBlock with
      | none => Except.error VisitError.nilDeref
      | some lb =>
          let s7 := if typeAt s6 lb = some BasicBlockType.FOR_STATEMENT
            then (addBasicBlock s6 BasicBlockType.FOR_BODY e).1
            else s6
          match s7.lastBlock with
          | none => Except.error VisitError.nilDeref
          | some lb2 =>
              let stepped :=
                if typeAt s7 lb2 = some BasicBlockType.RETURN_STMT
                then Except.ok s7
                else addSuccessorOpt s7 lb2 s7.forBlock
              match stepped with
              | Except.error er => Except.error er
              | Except.ok s8 => Except.ok { s8 with forBlock := none }) = Except.ok s' →
      StepOK s s' := by
  have hs7 : ∀ s7 : VState, StepOK s s7 →
      ∀ s', (match s7.lastBlock with
        | none => Except.error VisitError.nilDeref
        | some lb2 =>
            match (if typeAt s7 lb2 = some BasicBlockType.RETURN_STMT
                then Except.ok s7
                else addSuccessorOpt s7 lb2 s7.forBlock) with
            | Except.error er => Except.error er
            | Except.ok s8 => Except.ok { s8 with forBlock := none }) = Except.ok s' →
        StepOK s s' := by
    intro s7 h07 s' h7
    cases hlb2 : s7.lastBlock with
    | none => rw [hlb2] at h7; exact absurd h7 (by simp)
    | some lb2 =>
        simp only [hlb2] at h7
        by_cases hret : typeAt s7 lb2 = some BasicBlockType.RETURN_STMT
        · rw [if_pos hret] at h7
          cases h7
          exact stepOK_trans h07 (stepOK_setForBlock s7 none (fun _ => trivial))
        · rw [if_neg hret] at h7
          cases hfl : s7.forBlock with
          | none =>
              rw [hfl] at h7
              simp only [addSuccessorOpt] at h7
              exact absurd h7 (by simp)
          | some fl =>
              rw [hfl] at h7
              simp only [addSuccessorOpt] at h7
              cases h7
              exact stepOK_trans (stepOK_trans h07
                (stepOK_addSuccessorBlock s7 lb2 fl (fun hi => ref_mem_for hfl hi)))
                (stepOK_setForBlock _ none (fun _ => trivial))
  intro s' h
  cases hlb : s6.lastBlock with
  | none => rw [hlb] at h; exact absurd h (by simp)
  | some lb =>
      simp only [hlb] at h
      by_cases hty : typeAt s6 lb = some BasicBlockType.FOR_STATEMENT
      · rw [if_pos hty] at h
        exact hs7 _ (stepOK_trans hs6 (stepOK_addBasicBlock s6 BasicBlockType.FOR_BODY e)) s' h
      · rw [if_neg hty] at h
        exact hs7 s6 hs6 s' h

theorem stepOK_forStmt (s : VState) (p e : Nat) (body : List Stmt)
    (hbody : ∀ t t', visitList t body = Except.ok t' → StepOK t t') :
    ∀ s', visitStmt s (Stmt.forStmt p e body) = Except.ok s' → StepOK s s' := by
  intro s' h
  have hs2 : StepOK s { (addBasicBlock s BasicBlockType.FOR_STATEMENT p).1 with
      forBlock := some (addBasicBlock s BasicBlockType.FOR_STATEMENT p).2 } :=
    stepOK_trans (stepOK_addBasicBlock s BasicBlockType.FOR_STATEMENT p)
      (stepOK_setForBlock _ _ (fun _ => addBasicBlock_snd_mem s BasicBlockType.FOR_STATEMENT p))
  cases hrb : ((addBasicBlock s BasicBlockType.FOR_STATEMENT p).1).returnBlock with
  | none =>
      simp only [visitStmt, hrb, forBlock_addSuccessorBlock, returnBlock_addSuccessorBlock] at h
      split at h
      · exact absurd h (by simp)
      · next s5 hok =>
          have hs4 : StepOK s _ := stepOK_trans hs2
            (stepOK_setReturnBlock _ (some (addBasicBlock s BasicBlockType.FOR_STATEMENT p).2)
              (fun _ => addBasicBlock_snd_mem s BasicBlockType.FOR_STATEMENT p))
          have hs6 : StepOK s { s5 with returnBlock := none } :=
            stepOK_trans (stepOK_trans hs4 (hbody _ _ hok))
              (stepOK_setReturnBlock s5 none (fun _ => trivial))
          exact stepOK_for_tail e hs6 s' h
  | some rb =>
      simp only [visitStmt, hrb, forBlock_addSuccessorBlock, returnBlock_addSuccessorBlock] at h
      split at h
      · exact absurd h (by simp)
      · next s5 hok =>
          have hsa : StepOK s (addSuccessorBlock
              { (addBasicBlock s BasicBlockType.FOR_STATEMENT p).1 with
                  forBlock := some (addBasicBlock s BasicBlockType.FOR_STATEMENT p).2 }
              (addBasicBlock s BasicBlockType.FOR_STATEMENT p).2 rb) :=
            stepOK_trans hs2 (stepOK_addSuccessorBlock _ _ rb (fun hi => ref_mem_ret hrb hi))
          have hab : StepOK (addSuccessorBlock
              { (addBasicBlock s BasicBlockType.FOR_STATEMENT p).1 with
                  forBlock := some (addBasicBlock s BasicBlockType.FOR_STATEMENT p).2 }
              (addBasicBlock s BasicBlockType.FOR_STATEMENT p).2 rb) s5 := by
            refine stepOK_trans (stepOK_setReturnBlock _
              (some (addBasicBlock s BasicBlockType.FOR_STATEMENT p).2) (fun _ => ?_)) (hbody _ _ hok)
            rw [blockKeys_addSuccessorBlock]
            exact addBasicBlock_snd_mem s BasicBlockType.FOR_STATEMENT p
          have hs6 : StepOK s { s5 with returnBlock := some rb } :=
            stepOK_restoreReturn hsa hab (some rb) (fun hi => ref_mem_ret hrb hi)
          exact stepOK_for_tail e hs6 s' h

theorem stepOK_matchEdgeDstFor (t : VState) (src : Nat) :
    StepOK t (match t.forBlock with
      | some fb => addSuccessorBlock t src fb
      | none => t) := by
  cases hfb : t.forBlock with
  | none => exact stepOK_refl t
  | some fb => exact stepOK_addSuccessorBlock t src fb (fun hi => ref_mem_for hfb hi)

theorem blockKeys_matchEdgeDstFor (t : VState) (src : Nat) :
    blockKeys (match t.forBlock with
      | some fb => addSuccessorBlock t src fb
      | none => t) = blockKeys t := by
  cases hfb : t.forBlock with
  | none => rfl
  | some fb => exact blockKeys_addSuccessorBlock t src fb

theorem stepOK_matchEdgeSrcSwitch (t : VState) (dst : Nat) (hdst : dst ∈ blockKeys t) :
    StepOK t (match t.switchBlock with
      | some sw => addSuccessorBlock t sw dst
      | none => t) := by
  cases hsw : t.switchBlock with
  | none => exact stepOK_refl t
  | some sw => exact stepOK_addSuccessorBlock t sw dst (fun _ => hdst)

theorem blockKeys_matchEdgeSrcSwitch (t : VState) (dst : Nat) :
    blockKeys (match t.switchBlock with
      | some sw => addSuccessorBlock t sw dst
      | none => t) = blockKeys t := by
  cases hsw : t.switchBlock with
  | none => rfl
  | some sw => exact blockKeys_addSuccessorBlock t sw dst

theorem stepOK_matchEdgeDstRet (t : VState) (src : Nat) :
    StepOK t (match t.returnBlock with
      | some rb => addSuccessorBlock t src rb
      | none => t) := by
  cases hrb : t.returnBlock with
  | none => exact stepOK_refl t
  | some rb => exact stepOK_addSuccessorBlock t src rb (fun hi => ref_mem_ret hrb hi)

theorem blockKeys_matchEdgeDstRet (t : VState) (src : Nat) :
    blockKeys (match t.returnBlock with
      | some rb => addSuccessorBlock t src rb
      | none => t) = blockKeys t := by
  cases hrb : t.returnBlock with
  | none => rfl
  | some rb => exact blockKeys_addSuccessorBlock t src rb

theorem stepOK_matchLoopPair (t : VState) (sw : Nat) (hsw : sw ∈ blockKeys t) :
    StepOK t (match t.forBlock with
      | some fb => addSuccessorBlock (addSuccessorBlock t fb sw) sw fb
      | none => t) := by
  cases hfb : t.forBlock with
  | none => exact stepOK_refl t
  | some fb =>
      refine stepOK_trans (stepOK_addSuccessorBlock t fb sw (fun _ => hsw)) ?_
      exact stepOK_addSuccessorBlock _ sw fb (fun hi => ref_mem_for hfb hi)

theorem blockKeys_matchLoopPair (t : VState) (sw : Nat) :
    blockKeys (match t.forBlock with
      | some fb => addSuccessorBlock (addSuccessorBlock t fb sw) sw fb
      | none => t) = blockKeys t := by
  cases hfb : t.forBlock with
  | none => rfl
  | some fb =>
      rw [blockKeys_addSuccessorBlock, blockKeys_addSuccessorBlock]

theorem stepOK_switchStmt (s : VState) (p : Nat) (body : List Stmt)
    (hbody : ∀ t t', visitList t body = Except.ok t' → StepOK t t') :
    ∀ s', visitStmt s (Stmt.switchStmt p body) = Except.ok s' → StepOK s s' := by
  intro s' h
  simp only [visitStmt] at h
  refine stepOK_trans ?_ (hbody _ _ h)
  refine stepOK_trans (stepOK_trans (stepOK_addBasicBlock s BasicBlockType.SWITCH_STATEMENT p)
    (stepOK_setSwitchBlock _ (some (addBasicBlock s BasicBlockType.SWITCH_STATEMENT p).2)
      (fun _ => addBasicBlock_snd_mem s BasicBlockType.SWITCH_STATEMENT p))) ?_
  refine stepOK_trans (stepOK_matchLoopPair _
    (addBasicBlock s BasicBlockType.SWITCH_STATEMENT p).2
    (addBasicBlock_snd_mem s BasicBlockType.SWITCH_STATEMENT p)) ?_
  exact stepOK_matchEdgeDstRet _ (addBasicBlock s BasicBlockType.SWITCH_STATEMENT p).2

theorem stepOK_typeSwitchStmt (s : VState) (p : Nat) (body : List Stmt)
    (hbody : ∀ t t', visitList t body = Except.ok t' → StepOK t t') :
    ∀ s', visitStmt s (Stmt.typeSwitchStmt p body) = Except.ok s' → StepOK s s' := by
  intro s' h
  simp only [visitStmt] at h
  refine stepOK_trans ?_ (hbody _ _ h)
  refine stepOK_trans (stepOK_trans (stepOK_addBasicBlock s BasicBlockType.SWITCH_STATEMENT p)
    (stepOK_setSwitchBlock _ (some (addBasicBlock s BasicBlockType.SWITCH_STATEMENT p).2)
      (fun _ => addBasicBlock_snd_mem s BasicBlockType.SWITCH_STATEMENT p))) ?_
  exact stepOK_matchLoopPair _ (addBasicBlock s BasicBlockType.SWITCH_STATEMENT p).2
    (addBasicBlock_snd_mem s BasicBlockType.SWITCH_STATEMENT p)

theorem stepOK_selectStmt (s : VState) (p : Nat) (body : List Stmt)
    (hbody : ∀ t t', visitList t body = Except.ok t' → StepOK t t') :
    ∀ s', visitStmt s (Stmt.selectStmt p body) = Except.ok s' → StepOK s s' := by
  intro s' h
  simp only [visitStmt] at h
  refine stepOK_trans ?_ (hbody _ _ h)
  refine stepOK_trans (stepOK_trans (stepOK_addBasicBlock s BasicBlockType.SELECT_STATEMENT p)
    (stepOK_setSwitchBlock _ (some (addBasicBlock s BasicBlockType.SELECT_STATEMENT p).2)
      (fun _ => addBasicBlock_snd_mem s BasicBlockType.SELECT_STATEMENT p))) ?_
  exact stepOK_matchLoopPair _ (addBasicBlock s BasicBlockType.SELECT_STATEMENT p).2
    (addBasicBlock_snd_mem s BasicBlockType.SELECT_STATEMENT p)

theorem stepOK_visitClause (s : VState) (g : BasicBlockType) (e : Nat) (body : List Stmt)
    (hbody : ∀ t t', visitList t body = Except.ok t' → StepOK t t') :
    ∀ s', visitClause s g e body = Except.ok s' → StepOK s s' := by
  intro s' h
  simp only [visitClause] at h
  set R1 := (match getBasicBlockTypeFromStmt body with
    | (bt, some st) => addBasicBlock s bt (stmtPos st)
    | (_, none) => addBasicBlock s g e) with hR1
  have hr1 : StepOK s R1.1 ∧ R1.2 ∈ blockKeys R1.1 := by
    rw [hR1]
    rcases hscan : getBasicBlockTypeFromStmt body with ⟨bt, sto⟩
    cases sto with
    | none => exact ⟨stepOK_addBasicBlock s g e, addBasicBlock_snd_mem s g e⟩
    | some st =>
        exact ⟨stepOK_addBasicBlock s bt (stmtPos st), addBasicBlock_snd_mem s bt (stmtPos st)⟩
  have hs2 : StepOK s (match R1.1.forBlock with
      | some fb => addSuccessorBlock R1.1 R1.2 fb
      | none => R1.1) :=
    stepOK_trans hr1.1 (stepOK_matchEdgeDstFor R1.1 R1.2)
  have hmem2 : R1.2 ∈ blockKeys (match R1.1.forBlock with
      | some fb => addSuccessorBlock R1.1 R1.2 fb
      | none => R1.1) := by
    rw [blockKeys_matchEdgeDstFor]
    exact hr1.2
  have hs3 : StepOK s _ := stepOK_trans hs2 (stepOK_matchEdgeSrcSwitch _ R1.2 hmem2)
  have hs4 : StepOK s _ := stepOK_trans hs3 (stepOK_matchEdgeDstRet _ R1.2)
  split at h
  · exact absurd h (by simp)
  · next s5 hok =>
      have h45 := hbody _ _ hok
      have hs6 : StepOK s _ :=
        stepOK_restoreSwitchReturn hs4 h45 _ _ (fun hi => hi.2.2.2.2.2) (fun hi => hi.2.2.2.1)
      split at h
      · next rb hsrb =>
          split at h
          · next hcond =>
              split at h
              · cases h
                exact hs6
              · cases h
                exact stepOK_trans hs6
                  (stepOK_addSuccessorBlock _ _ rb (fun hi => ref_mem_ret hsrb hi))
          · cases h
            exact hs6
      · cases h
        exact hs6

theorem visit_stepOK_main : ∀ n : Nat,
    (∀ st : Stmt, sizeOf st ≤ n → ∀ s s', visitStmt s st = Except.ok s' → StepOK s s') ∧
    (∀ l : List Stmt, sizeOf l ≤ n → ∀ s s', visitList s l = Except.ok s' → StepOK s s') := by
  intro n
  induction n using Nat.strong_induction_on with
  | _ n ih =>
      constructor
      · intro st hst s s' h
        cases st with
        | returnStmt p e => exact stepOK_returnStmt s p e s' h
        | goStmt p => exact stepOK_goStmt s p s' h
        | ifStmt p body els =>
            refine stepOK_ifStmt s p body els (fun t t' ht => ?_) s' h
            have hlt : sizeOf body < n := by
              have hx : sizeOf body < sizeOf (Stmt.ifStmt p body els) := by simp <;> omega
              omega
            exact (ih (sizeOf body) hlt).2 body le_rfl t t' ht
        | forStmt p e body =>
            refine stepOK_forStmt s p e body (fun t t' ht => ?_) s' h
            have hlt : sizeOf body < n := by
              have hx : sizeOf body < sizeOf (Stmt.forStmt p e body) := by simp <;> omega
              omega
            exact (ih (sizeOf body) hlt).2 body le_rfl t t' ht
        | switchStmt p body =>
            refine stepOK_switchStmt s p body (fun t t' ht => ?_) s' h
            have hlt : sizeOf body < n := by
              have hx : sizeOf body < sizeOf (Stmt.switchStmt p body) := by simp <;> omega
              omega
            exact (ih (sizeOf body) hlt).2 body le_rfl t t' ht
        | typeSwitchStmt p body =>
            refine stepOK_typeSwitchStmt s p body (fun t t' ht => ?_) s' h
            have hlt : sizeOf body < n := by
              have hx : sizeOf body < sizeOf (Stmt.typeSwitchStmt p body) := by simp <;> omega
              omega
            exact (ih (sizeOf body) hlt).2 body le_rfl t t' ht
        | selectStmt p body =>
            refine stepOK_selectStmt s p body (fun t t' ht => ?_) s' h
            have hlt : sizeOf body < n := by
              have hx : sizeOf body < sizeOf (Stmt.selectStmt p body) := by simp <;> omega
              omega
            exact (ih (sizeOf body) hlt).2 body le_rfl t t' ht
        | caseClause q e body =>
            simp only [visitStmt] at h
            refine stepOK_visitClause s BasicBlockType.CASE_CLAUSE e body (fun t t' ht => ?_) s' h
            have hlt : sizeOf body < n := by
              have hx : sizeOf body < sizeOf (Stmt.caseClause q e body) := by simp <;> omega
              omega
            exact (ih (sizeOf body) hlt).2 body le_rfl t t' ht
        | commClause q e body =>
            simp only [visitStmt] at h
            refine stepOK_visitClause s BasicBlockType.COMM_CLAUSE e body (fun t t' ht => ?_) s' h
            have hlt : sizeOf body < n := by
              have hx : sizeOf body < sizeOf (Stmt.commClause q e body) := by simp <;> omega
              omega
            exact (ih (sizeOf body) hlt).2 body le_rfl t t' ht
        | otherStmt p children =>
            simp only [visitStmt] at h
            cases h
            exact stepOK_refl s
      · intro l hl s s' h
        cases l with
        | nil =>
            simp only [visitList] at h
            cases h
            exact stepOK_refl s
        | cons st rest =>
            simp only [visitList] at h
            split at h
            · exact absurd h (by simp)
            · next s1 hst1 =>
                have hlt1 : sizeOf st < n := by
                  have hx : sizeOf st < sizeOf (st :: rest) := by simp <;> omega
                  omega
                have hlt2 : sizeOf rest < n := by
                  have hx : sizeOf rest < sizeOf (st :: rest) := by simp <;> omega
                  omega
                exact stepOK_trans ((ih (sizeOf st) hlt1).1 st le_rfl s s1 hst1)
                  ((ih (sizeOf rest) hlt2).2 rest le_rfl s1 s' h)

theorem visitStmt_stepOK (st : Stmt) (s s' : VState) (h : visitStmt s st = Except.ok s') :
    StepOK s s' :=
  (visit_stepOK_main (sizeOf st)).1 st le_rfl s s' h

theorem visitList_stepOK (l : List Stmt) (s s' : VState) (h : visitList s l = Except.ok s') :
    StepOK s s' :=
  (visit_stepOK_main (sizeOf l)).2 l le_rfl s s' h

theorem walk_stepOK_main : ∀ n : Nat,
    (∀ st : Stmt, sizeOf st ≤ n → ∀ s s', walkStmt s st = Except.ok s' → StepOK s s') ∧
    (∀ l : List Stmt, sizeOf l ≤ n → ∀ s s', walkList s l = Except.ok s' → StepOK s s') := by
  intro n
  induction n using Nat.strong_induction_on with
  | _ n ih =>
      have hdesc : ∀ (st : Stmt) (body : List Stmt), sizeOf st ≤ n → sizeOf body < sizeOf st →
          ∀ s s', walkList s body = Except.ok s' → StepOK s s' := by
        intro st body hst hlt s s' h
        have hlt2 : sizeOf body < n := by omega
        exact (ih (sizeOf body) hlt2).2 body le_rfl s s' h
      constructor
      · intro st hst s s' h
        simp only [walkStmt] at h
        split at h
        · exact absurd h (by simp)
        · next s1 hv =>
            have h1 := visitStmt_stepOK st s s1 hv
            cases st with
            | ifStmt p body els =>
                refine stepOK_trans h1 (hdesc (Stmt.ifStmt p body els) body hst ?_ s1 s' h)
                simp <;> omega
            | caseClause q e body =>
                refine stepOK_trans h1 (hdesc (Stmt.caseClause q e body) body hst ?_ s1 s' h)
                simp <;> omega
            | commClause q e body =>
                refine stepOK_trans h1 (hdesc (Stmt.commClause q e body) body hst ?_ s1 s' h)
                simp <;> omega
            | otherStmt p children =>
                refine stepOK_trans h1 (hdesc (Stmt.otherStmt p children) children hst ?_ s1 s' h)
                simp <;> omega
            | returnStmt p e => cases h; exact h1
            | goStmt p => cases h; exact h1
            | forStmt p e body => cases h; exact h1
            | switchStmt p body => cases h; exact h1
            | typeSwitchStmt p body => cases h; exact h1
            | selectStmt p body => cases h; exact h1
      · intro l hl s s' h
        cases l with
        | nil =>
            simp only [walkList] at h
            cases h
            exact stepOK_refl s
        | cons st rest =>
            simp only [walkList] at h
            split at h
            · exact absurd h (by simp)
            · next s1 hst1 =>
                have hlt1 : sizeOf st < n := by
                  have hx : sizeOf st < sizeOf (st :: rest) := by simp <;> omega
                  omega
                have hlt2 : sizeOf rest < n := by
                  have hx : sizeOf rest < sizeOf (st :: rest) := by simp <;> omega
                  omega
                exact stepOK_trans ((ih (sizeOf st) hlt1).1 st le_rfl s s1 hst1)
                  ((ih (sizeOf rest) hlt2).2 rest le_rfl s1 s' h)

theorem walkStmt_stepOK (st : Stmt) (s s' : VState) (h : walkStmt s st = Except.ok s') :
    StepOK s s' :=
  (walk_stepOK_main (sizeOf st)).1 st le_rfl s s' h

theorem walkList_stepOK (l : List Stmt) (s s' : VState) (h : walkList s l = Except.ok s') :
    StepOK s s' :=
  (walk_stepOK_main (sizeOf l)).2 l le_rfl s s' h

theorem stepOK_prescan (l : List Stmt) (t : VState) :
    StepOK t (l.foldl (fun acc st =>
      match st with
      | Stmt.returnStmt _ e =>
          let r := addBasicBlock acc BasicBlockType.RETURN_STMT e
          { r.1 with returnBlock := some r.2 }
      | _ => acc) t) := by
  induction l generalizing t with
  | nil => exact stepOK_refl t
  | cons st rest ihl =>
      rw [List.foldl_cons]
      refine stepOK_trans ?_ (ihl _)
      cases st with
      | returnStmt q e =>
          exact stepOK_trans (stepOK_addBasicBlock t BasicBlockType.RETURN_STMT e)
            (stepOK_setReturnBlock _ (some (addBasicBlock t BasicBlockType.RETURN_STMT e).2)
              (fun _ => addBasicBlock_snd_mem t BasicBlockType.RETURN_STMT e))
      | goStmt p => exact stepOK_refl t
      | ifStmt p body els => exact stepOK_refl t
      | forStmt p e body => exact stepOK_refl t
      | switchStmt p body => exact stepOK_refl t
      | typeSwitchStmt p body => exact stepOK_refl t
      | selectStmt p body => exact stepOK_refl t
      | caseClause q e body => exact stepOK_refl t
      | commClause q e body => exact stepOK_refl t
      | otherStmt p children => exact stepOK_refl t

theorem visitFuncDecl_stepOK (s : VState) (name : String) (p e : Nat)
    (body : Option (List Stmt)) :
    ∀ s', visitFuncDecl s name p e body = Except.ok s' → StepOK s s' := by
  intro s' h
  cases body with
  | none => simp [visitFuncDecl] at h
  | some stmts =>
      simp only [visitFuncDecl] at h
      have hs2 : StepOK s (setFunctionName (addBasicBlock s BasicBlockType.FUNCTION_ENTRY p).1
          (addBasicBlock s BasicBlockType.FUNCTION_ENTRY p).2 name) :=
        stepOK_trans (stepOK_addBasicBlock s BasicBlockType.FUNCTION_ENTRY p)
          (stepOK_setFunctionName _ _ name)
      have hs3 : StepOK s _ := stepOK_trans hs2 (stepOK_prescan stmts _)
      split at h
      · exact absurd h (by simp)
      · next s5 hok =>
          cases h
          refine stepOK_trans ?_ (stepOK_setReturnBlock s5 none (fun _ => trivial))
          refine stepOK_trans ?_ (visitList_stepOK stmts _ s5 hok)
          split
          · next hnone =>
              exact stepOK_trans hs3 (stepOK_trans
                (stepOK_addBasicBlock _ BasicBlockType.RETURN_STMT e)
                (stepOK_setReturnBlock _
                  (some (addBasicBlock _ BasicBlockType.RETURN_STMT e).2)
                  (fun _ => addBasicBlock_snd_mem _ BasicBlockType.RETURN_STMT e)))
          · exact hs3

theorem walkDecl_stepOK (s : VState) (d : Decl) :
    ∀ s', walkDecl s d = Except.ok s' → StepOK s s' := by
  intro s' h
  cases d with
  | funcDecl name p e body =>
      simp only [walkDecl] at h
      exact visitFuncDecl_stepOK s name p e body s' h
  | genDecl nested =>
      simp only [walkDecl] at h
      exact walkList_stepOK nested s s' h

theorem walkFile_stepOK : ∀ (ds : List Decl) (s s' : VState),
    walkFile s ds = Except.ok s' → StepOK s s' := by
  intro ds
  induction ds with
  | nil =>
      intro s s' h
      simp only [walkFile] at h
      cases h
      exact stepOK_refl s
  | cons d rest ihd =>
      intro s s' h
      simp only [walkFile] at h
      split at h
      · exact absurd h (by simp)
      · next s1 hd1 => exact stepOK_trans (walkDecl_stepOK s d s1 hd1) (ihd s1 s' h)

theorem inv_initialVisitor : Inv initialVisitor := by
  refine ⟨?_, ?_, ?_, ?_, ?_, ?_⟩ <;> simp [initialVisitor, blockKeys, optRef]

theorem lookup_sound {s : VState} {k : Nat} {b : BasicBlock}
    (h : lookupBlock s k = some b) : ∃ p ∈ s.basicBlocks, p.1 = k ∧ p.2 = b := by
  unfold lookupBlock at h
  cases hf : s.basicBlocks.find? (fun p => p.1 == k) with
  | none => rw [hf] at h; exact absurd h (by simp)
  | some p =>
      rw [hf] at h
      have hm := List.mem_of_find?_eq_some hf
      have hp := List.find?_some hf
      exact ⟨p, hm, by simpa using hp, by simpa using h⟩

theorem mem_keys_lookup_isSome {s : VState} {k : Nat} (h : k ∈ blockKeys s) :
    (lookupBlock s k).isSome = true := by
  obtain ⟨p, hp, hk⟩ := List.mem_map.mp h
  have hs : (s.basicBlocks.find? (fun q => q.1 == k)).isSome = true :=
    List.find?_isSome.mpr ⟨p, hp, by simp [hk]⟩
  unfold lookupBlock
  cases hf : s.basicBlocks.find? (fun q => q.1 == k) with
  | none => rw [hf] at hs; simp at hs
  | some q => simp

theorem lookup_endLine {s : VState} (hline : ∀ p ∈ s.basicBlocks, p.2.endLine = p.1)
    {k : Nat} {b : BasicBlock} (h : lookupBlock s k = some b) : b.endLine = k := by
  obtain ⟨p, hp, hk, hb⟩ := lookup_sound h
  rw [← hb, hline p hp, hk]

theorem numberBlocks_length (s : VState) :
    ∀ (ks : List Nat) (i : Nat), (∀ k ∈ ks, (lookupBlock s k).isSome = true) →
      (numberBlocks s i ks).length = ks.length := by
  intro ks
  induction ks with
  | nil => intro i _; rfl
  | cons k rest ih =>
      intro i hall
      have hk := hall k (by simp)
      cases hl : lookupBlock s k with
      | none => rw [hl] at hk; simp at hk
      | some b =>
          simp only [numberBlocks, hl, List.length_cons]
          rw [ih (i + 1) (fun k2 hk2 => hall k2 (by simp [hk2]))]

theorem numberBlocks_map_number (s : VState) :
    ∀ (ks : List Nat) (i : Nat), (∀ k ∈ ks, (lookupBlock s k).isSome = true) →
      (numberBlocks s i ks).map (fun b => b.number) =
        (List.range' i ks.length).map Int.ofNat := by
  intro ks
  induction ks with
  | nil => intro i _; rfl
  | cons k rest ih =>
      intro i hall
      have hk := hall k (by simp)
      cases hl : lookupBlock s k with
      | none => rw [hl] at hk; simp at hk
      | some b =>
          simp only [numberBlocks, hl, List.length_cons, List.range'_succ, List.map_cons]
          exact congrArg₂ List.cons rfl (ih (i + 1) (fun k2 hk2 => hall k2 (by simp [hk2])))

theorem numberBlocks_map_endLine (s : VState)
    (hline : ∀ p ∈ s.basicBlocks, p.2.endLine = p.1) :
    ∀ (ks : List Nat) (i : Nat), (∀ k ∈ ks, (lookupBlock s k).isSome = true) →
      (numberBlocks s i ks).map (fun b => b.endLine) = ks := by
  intro ks
  induction ks with
  | nil => intro i _; rfl
  | cons k rest ih =>
      intro i hall
      have hk := hall k (by simp)
      cases hl : lookupBlock s k with
      | none => rw [hl] at hk; simp at hk
      | some b =>
          simp only [numberBlocks, hl, List.map_cons, List.cons.injEq]
          refine ⟨?_, ih (i + 1) (fun k2 hk2 => hall k2 (by simp [hk2]))⟩
          exact lookup_endLine hline hl

theorem mem_numberBlocks {s : VState} :
    ∀ {ks : List Nat} {i : Nat} {b : BasicBlock}, b ∈ numberBlocks s i ks →
      ∃ k ∈ ks, ∃ b0, lookupBlock s k = some b0 ∧
        b.successor = b0.successor ∧ b.endLine = b0.endLine := by
  intro ks
  induction ks with
  | nil => intro i b hb; simp [numberBlocks] at hb
  | cons k rest ih =>
      intro i b hb
      simp only [numberBlocks] at hb
      cases hl : lookupBlock s k with
      | none =>
          rw [hl] at hb
          obtain ⟨k2, hk2, rest2⟩ := ih hb
          exact ⟨k2, by simp [hk2], rest2⟩
      | some b0 =>
          rw [hl] at hb
          rcases List.mem_cons.mp hb with hhead | htail
          · exact ⟨k, by simp, b0, hl, by rw [hhead], by rw [hhead]⟩
          · obtain ⟨k2, hk2, rest2⟩ := ih htail
            exact ⟨k2, by simp [hk2], rest2⟩

theorem addSequentialEdges_length :
    ∀ bs : List BasicBlock, (addSequentialEdges bs).length = bs.length := by
  intro bs
  induction bs with
  | nil => rfl
  | cons b rest ih =>
      cases rest with
      | nil => rfl
      | cons b2 rest2 => simpa [addSequentialEdges] using ih

theorem addSequentialEdges_map_endLine :
    ∀ bs : List BasicBlock,
      (addSequentialEdges bs).map (fun b => b.endLine) = bs.map (fun b => b.endLine) := by
  intro bs
  induction bs with
  | nil => rfl
  | cons b rest ih =>
      cases rest with
      | nil => rfl
      | cons b2 rest2 =>
          simp only [addSequentialEdges, List.map_cons, List.cons.injEq] at ih ⊢
          refine ⟨?_, ih⟩
          split <;> rfl

theorem mem_addSequentialEdges :
    ∀ (bs : List BasicBlock) (b : BasicBlock), b ∈ addSequentialEdges bs →
      ∃ b0 ∈ bs, b.endLine = b0.endLine ∧
        ∀ l ∈ b.successor, l ∈ b0.successor ∨ l ∈ bs.map (fun x => x.endLine) := by
  intro bs
  induction bs with
  | nil => intro b hb; simp [addSequentialEdges] at hb
  | cons b1 rest ih =>
      cases rest with
      | nil =>
          intro b hb
          simp only [addSequentialEdges, List.mem_singleton] at hb
          exact ⟨b1, by simp, by rw [hb], fun l hl => Or.inl (hb ▸ hl)⟩
      | cons b2 rest2 =>
          intro b hb
          simp only [addSequentialEdges, List.mem_cons] at hb
          rcases hb with hb | hb
          · refine ⟨b1, by simp, ?_, ?_⟩
            · rw [hb]; split <;> rfl
            · intro l hl
              rw [hb] at hl
              by_cases hseq : isSequentialSource b1.type
              · rw [if_pos hseq] at hl
                rcases mem_insertSucc hl with h1 | h1
                · exact Or.inl h1
                · exact Or.inr (by simp [h1])
              · rw [if_neg hseq] at hl
                exact Or.inl hl
          · obtain ⟨b0, hb0, he, hs⟩ := ih b hb
            refine ⟨b0, List.mem_cons_of_mem b1 hb0, he, ?_⟩
            intro l hl
            rcases hs l hl with h1 | h1
            · exact Or.inl h1
            · exact Or.inr (List.mem_cons_of_mem _ h1)

theorem addSequentialEdges_get :
    ∀ (bs : List BasicBlock) (i : Nat) (h1 : i < (addSequentialEdges bs).length)
      (h2 : i < bs.length) (h3 : i + 1 < bs.length),
      (addSequentialEdges bs).get ⟨i, h1⟩ =
        if isSequentialSource (bs.get ⟨i, h2⟩).type
        then addSuccessorInBlock (bs.get ⟨i, h2⟩) ((bs.get ⟨i + 1, h3⟩).endLine)
        else bs.get ⟨i, h2⟩ := by
  intro bs
  induction bs with
  | nil => intro i h1 h2 h3; simp at h2
  | cons b rest ih =>
      intro i h1 h2 h3
      cases rest with
      | nil => simp at h3
      | cons b2 rest2 =>
          cases i with
          | zero => simp [addSequentialEdges]
          | succ j =>
              have hj3 : j + 1 < (b2 :: rest2).length := by
                simp only [List.length_cons] at h3 ⊢
                omega
              have hj1 : j < (addSequentialEdges (b2 :: rest2)).length := by
                rw [addSequentialEdges_length]
                omega
              have hj2 : j < (b2 :: rest2).length := by
                simp only [List.length_cons] at hj3 ⊢
                omega
              have hrec := ih j hj1 hj2 hj3
              simpa [addSequentialEdges] using hrec

theorem eventsExt_trans {a b c : VState} (h1 : ∃ d, b.events = a.events ++ d)
    (h2 : ∃ d, c.events = b.events ++ d) : ∃ d, c.events = a.events ++ d := by
  obtain ⟨d1, e1⟩ := h1
  obtain ⟨d2, e2⟩ := h2
  exact ⟨d1 ++ d2, by rw [e2, e1, List.append_assoc]⟩

theorem switchBlock_matchEdgeDstFor (t : VState) (src : Nat) :
    (match t.forBlock with
      | some fb => addSuccessorBlock t src fb
      | none => t).switchBlock = t.switchBlock := by
  cases hfb : t.forBlock <;> rfl

theorem returnBlock_matchEdgeDstFor (t : VState) (src : Nat) :
    (match t.forBlock with
      | some fb => addSuccessorBlock t src fb
      | none => t).returnBlock = t.returnBlock := by
  cases hfb : t.forBlock <;> rfl

theorem eventsExt_matchEdgeDstFor (t : VState) (src : Nat) :
    ∃ d, (match t.forBlock with
      | some fb => addSuccessorBlock t src fb
      | none => t).events = t.events ++ d := by
  cases hfb : t.forBlock with
  | none => exact ⟨[], by simp⟩
  | some fb => exact ⟨[Event.edge src fb], rfl⟩

theorem switchBlock_matchEdgeSrcSwitch (t : VState) (dst : Nat) :
    (match t.switchBlock with
      | some sw => addSuccessorBlock t sw dst
      | none => t).switchBlock = t.switchBlock := by
  cases hsw : t.switchBlock <;> exact hsw

theorem returnBlock_matchEdgeSrcSwitch (t : VState) (dst : Nat) :
    (match t.switchBlock with
      | some sw => addSuccessorBlock t sw dst
      | none => t).returnBlock = t.returnBlock := by
  cases hsw : t.switchBlock <;> rfl

theorem eventsExt_matchEdgeSrcSwitch (t : VState) (dst : Nat) :
    ∃ d, (match t.switchBlock with
      | some sw => addSuccessorBlock t sw dst
      | none => t).events = t.events ++ d := by
  cases hsw : t.switchBlock with
  | none => exact ⟨[], by simp⟩
  | some sw => exact ⟨[Event.edge sw dst], rfl⟩

theorem switchBlock_matchEdgeDstRet (t : VState) (src : Nat) :
    (match t.returnBlock with
      | some rb => addSuccessorBlock t src rb
      | none => t).switchBlock = t.switchBlock := by
  cases hrb : t.returnBlock <;> rfl

theorem returnBlock_matchEdgeDstRet (t : VState) (src : Nat) :
    (match t.returnBlock with
      | some rb => addSuccessorBlock t src rb
      | none => t).returnBlock = t.returnBlock := by
  cases hrb : t.returnBlock <;> exact hrb

theorem eventsExt_matchEdgeDstRet (t : VState) (src : Nat) :
    ∃ d, (match t.returnBlock with
      | some rb => addSuccessorBlock t src rb
      | none => t).events = t.events ++ d := by
  cases hrb : t.returnBlock with
  | none => exact ⟨[], by simp⟩
  | some rb => exact ⟨[Event.edge src rb], rfl⟩

theorem find?_update_self (bs : List (Nat × BasicBlock)) (l : Nat)
    (f : BasicBlock → BasicBlock) :
    ((bs.map (fun p => if p.1 = l then (p.1, f p.2) else p)).find?
        (fun p => p.1 == l)).map (fun p => p.2) =
      ((bs.find? (fun p => p.1 == l)).map (fun p => p.2)).map f := by
  induction bs with
  | nil => rfl
  | cons p rest ih =>
      by_cases hp : p.1 = l
      · rw [List.map_cons, if_pos hp]
        rw [List.find?_cons_of_pos _ (by simp [hp]), List.find?_cons_of_pos _ (by simp [hp])]
        rfl
      · rw [List.map_cons, if_neg hp]
        rw [List.find?_cons_of_neg _ (by simp [hp]), List.find?_cons_of_neg _ (by simp [hp])]
        exact ih

theorem find?_update_ne (bs : List (Nat × BasicBlock)) (l l2 : Nat)
    (f : BasicBlock → BasicBlock) (h : l2 ≠ l) :
    (bs.map (fun p => if p.1 = l then (p.1, f p.2) else p)).find? (fun p => p.1 == l2) =
      bs.find? (fun p => p.1 == l2) := by
  induction bs with
  | nil => rfl
  | cons p rest ih =>
      by_cases hp : p.1 = l
      · rw [List.map_cons, if_pos hp]
        rw [List.find?_cons_of_neg _ (by simp [hp]; omega),
          List.find?_cons_of_neg _ (by simp [hp]; omega)]
        exact ih
      · rw [List.map_cons, if_neg hp]
        by_cases hp2 : p.1 = l2
        · rw [List.find?_cons_of_pos _ (by simp [hp2]), List.find?_cons_of_pos _ (by simp [hp2])]
        · rw [List.find?_cons_of_neg _ (by simp [hp2]), List.find?_cons_of_neg _ (by simp [hp2])]
          exact ih

theorem lookupBlock_updateBlockAt_self (s : VState) (l : Nat) (f : BasicBlock → BasicBlock) :
    lookupBlock (updateBlockAt s l f) l = (lookupBlock s l).map f := by
  unfold lookupBlock updateBlockAt
  exact find?_update_self s.basicBlocks l f

theorem lookupBlock_updateBlockAt_ne (s : VState) (l l2 : Nat) (f : BasicBlock → BasicBlock)
    (h : l2 ≠ l) : lookupBlock (updateBlockAt s l f) l2 = lookupBlock s l2 := by
  unfold lookupBlock updateBlockAt
  rw [find?_update_ne s.basicBlocks l l2 f h]

theorem lookupBlock_addBasicBlock_self (s : VState) (bt : BasicBlockType) (l : Nat) :
    lookupBlock (addBasicBlock s bt l).1 l = some (newBasicBlock bt l) := by
  unfold addBasicBlock
  cases hl : lookupBlock s l with
  | some b =>
      show lookupBlock (updateBlockAt s l (fun _ => newBasicBlock bt l)) l = _
      rw [lookupBlock_updateBlockAt_self, hl]
      rfl
  | none =>
      have hfind : s.basicBlocks.find? (fun p => p.1 == l) = none := by
        unfold lookupBlock at hl
        exact Option.map_eq_none.mp hl
      show ((s.basicBlocks ++ [(l, newBasicBlock bt l)]).find?
          (fun p => p.1 == l)).map (fun p => p.2) = _
      rw [List.find?_append, hfind, Option.none_or, List.find?_cons_of_pos _ (by simp)]
      rfl

theorem lookupBlock_addBasicBlock_ne (s : VState) (bt : BasicBlockType) (l l2 : Nat)
    (h : l2 ≠ l) : lookupBlock (addBasicBlock s bt l).1 l2 = lookupBlock s l2 := by
  unfold addBasicBlock
  cases hl : lookupBlock s l with
  | some b =>
      show lookupBlock (updateBlockAt s l (fun _ => newBasicBlock bt l)) l2 = _
      exact lookupBlock_updateBlockAt_ne s l l2 _ h
  | none =>
      show ((s.basicBlocks ++ [(l, newBasicBlock bt l)]).find?
          (fun p => p.1 == l2)).map (fun p => p.2) = _
      rw [List.find?_append]
      have : ([(l, newBasicBlock bt l)].find? (fun p => p.1 == l2)) = none := by
        rw [List.find?_cons_of_neg _ (by simp; exact fun hh => h hh.symm)]
        rfl
      rw [this]
      unfold lookupBlock
      cases hf : s.basicBlocks.find? (fun p => p.1 == l2) <;> simp [hf]

theorem typeAt_addBasicBlock_self (s : VState) (bt : BasicBlockType) (l : Nat) :
    typeAt (addBasicBlock s bt l).1 l = some bt := by
  unfold typeAt
  rw [lookupBlock_addBasicBlock_self]
  rfl

theorem length_addBasicBlock (s : VState) (bt : BasicBlockType) (l : Nat) :
    ((addBasicBlock s bt l).1).basicBlocks.length =
      if (lookupBlock s l).isSome then s.basicBlocks.length else s.basicBlocks.length + 1 := by
  unfold addBasicBlock
  cases hl : lookupBlock s l <;> simp [hl, updateBlockAt]

theorem for_tail_spec (s6 : VState) (e : Nat) :
    ∀ s', (match s6.lastBlock with
      | none => Except.error VisitError.nilDeref
      | some lb =>
          let s7 := if typeAt s6 lb = some BasicBlockType.FOR_STATEMENT
            then (addBasicBlock s6 BasicBlockType.FOR_BODY e).1
            else s6
          match s7.lastBlock with
          | none => Except.error VisitError.nilDeref
          | some lb2 =>
              let stepped := if typeAt s7 lb2 = some BasicBlockType.RETURN_STMT
                then Except.ok s7
                else addSuccessorOpt s7 lb2 s7.forBlock
              match stepped with
              | Except.error er => Except.error er
              | Except.ok s8 => Except.ok { s8 with forBlock := none }) = Except.ok s' →
      s'.returnBlock = s6.returnBlock ∧ s'.forBlock = none ∧
      ∃ lb, s6.lastBlock = some lb ∧
        ((typeAt s6 lb = some BasicBlockType.RETURN_STMT → s'.events = s6.events) ∧
         (typeAt s6 lb = some BasicBlockType.FOR_STATEMENT →
           ∃ fl, s6.forBlock = some fl ∧
             s'.events = s6.events ++ [Event.emit BasicBlockType.FOR_BODY e, Event.edge e fl]) ∧
         ((typeAt s6 lb ≠ some BasicBlockType.RETURN_STMT ∧
           typeAt s6 lb ≠ some BasicBlockType.FOR_STATEMENT) →
           ∃ fl, s6.forBlock = some fl ∧ s'.events = s6.events ++ [Event.edge lb fl])) := by
  intro s' h
  cases hlb : s6.lastBlock with
  | none => rw [hlb] at h; exact absurd h (by simp)
  | some lb =>
      simp only [hlb] at h
      by_cases hty : typeAt s6 lb = some BasicBlockType.FOR_STATEMENT
      · rw [if_pos hty] at h
        simp only [lastBlock_addBasicBlock] at h
        rw [if_neg (by rw [typeAt_addBasicBlock_self]; simp)] at h
        simp only [addSuccessorOpt, forBlock_addBasicBlock] at h
        cases hfl : s6.forBlock with
        | none => rw [hfl] at h; exact absurd h (by simp)
        | some fl =>
            rw [hfl] at h
            cases h
            refine ⟨by simp [returnBlock_addSuccessorBlock, returnBlock_addBasicBlock], rfl,
              lb, rfl, ?_, ?_, ?_⟩
            · intro hret
              rw [hty] at hret
              exact absurd hret (by simp)
            · intro _
              refine ⟨fl, rfl, ?_⟩
              rw [events_addSuccessorBlock, events_addBasicBlock, List.append_assoc]
              rfl
            · intro hcon
              exact absurd hty hcon.2
      · rw [if_neg hty] at h
        simp only [hlb] at h
        by_cases hret : typeAt s6 lb = some BasicBlockType.RETURN_STMT
        · rw [if_pos hret] at h
          cases h
          refine ⟨rfl, rfl, lb, rfl, fun _ => rfl, ?_, ?_⟩
          · intro hfor
            exact absurd hfor hty
          · intro hcon
            exact absurd hret hcon.1
        · rw [if_neg hret] at h
          simp only [addSuccessorOpt] at h
          cases hfl : s6.forBlock with
          | none => rw [hfl] at h; exact absurd h (by simp)
          | some fl =>
              rw [hfl] at h
              cases h
              refine ⟨rfl, rfl, lb, rfl, ?_, ?_, ?_⟩
              · intro hc
                exact absurd hc hret
              · intro hc
                exact absurd hc hty
              · intro _
                exact ⟨fl, rfl, by rw [events_addSuccessorBlock]⟩

theorem visitStmt_forStmt_spec (s : VState) (p e : Nat) (body : List Stmt) (s' : VState)
    (h : visitStmt s (Stmt.forStmt p e body) = Except.ok s') :
    s'.returnBlock = s.returnBlock ∧ s'.forBlock = none ∧
    ∃ s4 s5 lb, visitList s4 body = Except.ok s5 ∧
      s4.returnBlock = some p ∧ s4.forBlock = some p ∧
      (∃ d, s4.events = s.events ++ Event.emit BasicBlockType.FOR_STATEMENT p :: d) ∧
      s5.lastBlock = some lb ∧
      ((typeAt s5 lb = some BasicBlockType.RETURN_STMT → s'.events = s5.events) ∧
       (typeAt s5 lb = some BasicBlockType.FOR_STATEMENT →
         ∃ fl, s5.forBlock = some fl ∧
           s'.events = s5.events ++ [Event.emit BasicBlockType.FOR_BODY e, Event.edge e fl]) ∧
       ((typeAt s5 lb ≠ some BasicBlockType.RETURN_STMT ∧
         typeAt s5 lb ≠ some BasicBlockType.FOR_STATEMENT) →
         ∃ fl, s5.forBlock = some fl ∧ s'.events = s5.events ++ [Event.edge lb fl])) := by
  have hsnd := addBasicBlock_snd s BasicBlockType.FOR_STATEMENT p
  have hret0 := returnBlock_addBasicBlock s BasicBlockType.FOR_STATEMENT p
  cases hrb : ((addBasicBlock s BasicBlockType.FOR_STATEMENT p).1).returnBlock with
  | none =>
      simp only [visitStmt, hrb, forBlock_addSuccessorBlock, returnBlock_addSuccessorBlock] at h
      split at h
      · exact absurd h (by simp)
      · next s5 hok =>
          obtain ⟨h1, h2, lb, hlb, htri⟩ :=
            for_tail_spec { s5 with returnBlock := none } e s' h
          refine ⟨by rw [h1, ← hret0, hrb], h2, _, s5, lb, hok, ?_, ?_, ?_, hlb, htri⟩
          · show some (addBasicBlock s BasicBlockType.FOR_STATEMENT p).2 = some p
            rw [hsnd]
          · show some (addBasicBlock s BasicBlockType.FOR_STATEMENT p).2 = some p
            rw [hsnd]
          · exact ⟨[], by rw [events_addBasicBlock]⟩
  | some rb =>
      simp only [visitStmt, hrb, forBlock_addSuccessorBlock, returnBlock_addSuccessorBlock] at h
      split at h
      · exact absurd h (by simp)
      · next s5 hok =>
          obtain ⟨h1, h2, lb, hlb, htri⟩ :=
            for_tail_spec { s5 with returnBlock := some rb } e s' h
          refine ⟨by rw [h1, ← hret0, hrb], h2, _, s5, lb, hok, ?_, ?_, ?_, hlb, htri⟩
          · show some (addBasicBlock s BasicBlockType.FOR_STATEMENT p).2 = some p
            rw [hsnd]
          · show some (addBasicBlock s BasicBlockType.FOR_STATEMENT p).2 = some p
            rw [hsnd]
          · refine ⟨[Event.edge (addBasicBlock s BasicBlockType.FOR_STATEMENT p).2 rb], ?_⟩
            rw [events_addSuccessorBlock, events_addBasicBlock, List.append_assoc]
            rfl

theorem visitClause_spec (s : VState) (g : BasicBlockType) (e : Nat) (body : List Stmt)
    (s' : VState) (h : visitClause s g e body = Except.ok s') :
    s'.switchBlock = s.switchBlock ∧ s'.returnBlock = s.returnBlock ∧
    ∃ d, s'.events = s.events ++ (match getBasicBlockTypeFromStmt body with
      | (bt, some st) => Event.emit bt (stmtPos st)
      | (_, none) => Event.emit g e) :: d := by
  simp only [visitClause] at h
  set R1 := (match getBasicBlockTypeFromStmt body with
    | (bt, some st) => addBasicBlock s bt (stmtPos st)
    | (_, none) => addBasicBlock s g e) with hR1
  set S2 := (match R1.1.forBlock with
    | some fb => addSuccessorBlock R1.1 R1.2 fb
    | none => R1.1) with hS2
  set S3 := (match S2.switchBlock with
    | some sw => addSuccessorBlock S2 sw R1.2
    | none => S2) with hS3
  set S4 := (match S3.returnBlock with
    | some rb => addSuccessorBlock S3 R1.2 rb
    | none => S3) with hS4
  have hr1sw : R1.1.switchBlock = s.switchBlock := by
    rw [hR1]
    rcases hscan : getBasicBlockTypeFromStmt body with ⟨bt, sto⟩
    cases sto with
    | none => exact switchBlock_addBasicBlock s g e
    | some st => exact switchBlock_addBasicBlock s bt (stmtPos st)
  have hr1rb : R1.1.returnBlock = s.returnBlock := by
    rw [hR1]
    rcases hscan : getBasicBlockTypeFromStmt body with ⟨bt, sto⟩
    cases sto with
    | none => exact returnBlock_addBasicBlock s g e
    | some st => exact returnBlock_addBasicBlock s bt (stmtPos st)
  have hr1ev : R1.1.events = s.events ++ [(match getBasicBlockTypeFromStmt body with
      | (bt, some st) => Event.emit bt (stmtPos st)
      | (_, none) => Event.emit g e)] := by
    rw [hR1]
    rcases hscan : getBasicBlockTypeFromStmt body with ⟨bt, sto⟩
    cases sto with
    | none => exact events_addBasicBlock s g e
    | some st => exact events_addBasicBlock s bt (stmtPos st)
  have hs4sw : S4.switchBlock = s.switchBlock := by
    rw [hS4, switchBlock_matchEdgeDstRet, hS3, switchBlock_matchEdgeSrcSwitch, hS2,
      switchBlock_matchEdgeDstFor, hr1sw]
  have hs4rb : S4.returnBlock = s.returnBlock := by
    rw [hS4, returnBlock_matchEdgeDstRet, hS3, returnBlock_matchEdgeSrcSwitch, hS2,
      returnBlock_matchEdgeDstFor, hr1rb]
  have hs4ev : ∃ d, S4.events = R1.1.events ++ d := by
    rw [hS4, hS3, hS2]
    exact eventsExt_trans (eventsExt_matchEdgeDstFor R1.1 R1.2)
      (eventsExt_trans (eventsExt_matchEdgeSrcSwitch _ R1.2)
        (eventsExt_matchEdgeDstRet _ R1.2))
  split at h
  · exact absurd h (by simp)
  · next s5 hok =>
      have hevch : ∃ d, s5.events = s.events ++ (match getBasicBlockTypeFromStmt body with
          | (bt, some st) => Event.emit bt (stmtPos st)
          | (_, none) => Event.emit g e) :: d := by
        obtain ⟨d1, hd1⟩ := hs4ev
        obtain ⟨d2, hd2⟩ := (visitList_stepOK body _ s5 hok).2.1
        refine ⟨d1 ++ d2, ?_⟩
        rw [hd2, hd1, hr1ev, List.append_assoc, List.append_assoc, List.singleton_append]
      split at h
      · next rb hsrb =>
          split at h
          · next hcond =>
              split at h
              · cases h
                exact ⟨hs4sw, hs4rb, hevch⟩
              · cases h
                refine ⟨by rw [switchBlock_addSuccessorBlock]; exact hs4sw,
                  by rw [returnBlock_addSuccessorBlock]; exact hs4rb, ?_⟩
                obtain ⟨d, hd⟩ := hevch
                refine ⟨d ++ [Event.edge R1.2 rb], ?_⟩
                rw [events_addSuccessorBlock, hd, List.append_assoc, List.cons_append]
          · cases h
            exact ⟨hs4sw, hs4rb, hevch⟩
      · cases h
        exact ⟨hs4sw, hs4rb, hevch⟩

theorem visitStmt_ifStmt_spec (s : VState) (p : Nat) (body : List Stmt) (ep ee : Nat)
    (s' : VState) (h : visitStmt s (Stmt.ifStmt p body (some (ep, ee))) = Except.ok s') :
    ∃ s4 s5 d, visitList s4 body = Except.ok s5 ∧
      s4.events = s.events ++ [Event.emit BasicBlockType.IF_CONDITION p,
        Event.emit BasicBlockType.ELSE_CONDITION ep, Event.emit BasicBlockType.ELSE_BODY ee,
        Event.edge p ee] ∧
      s5.events = s4.events ++ d ∧
      ((s5.returnBlock = none ∧ s' = s5) ∨
        ∃ rb, s5.returnBlock = some rb ∧
          s' = addSuccessorBlock (addSuccessorBlock s5 ep rb) ee rb ∧
          s'.events = s5.events ++ [Event.edge ep rb, Event.edge ee rb]) := by
  have hsnd1 := addBasicBlock_snd s BasicBlockType.IF_CONDITION p
  have hsnd2 := addBasicBlock_snd (addBasicBlock s BasicBlockType.IF_CONDITION p).1
    BasicBlockType.ELSE_CONDITION ep
  have hsnd3 := addBasicBlock_snd (addBasicBlock (addBasicBlock s
    BasicBlockType.IF_CONDITION p).1 BasicBlockType.ELSE_CONDITION ep).1
    BasicBlockType.ELSE_BODY ee
  simp only [visitStmt] at h
  split at h
  · exact absurd h (by simp)
  · next s5 hok =>
      obtain ⟨d, hd⟩ := (visitList_stepOK body _ s5 hok).2.1
      refine ⟨_, s5, d, hok, ?_, hd, ?_⟩
      · rw [events_addSuccessorBlock, events_addBasicBlock, events_addBasicBlock,
          events_addBasicBlock, hsnd1, hsnd3]
        simp [List.append_assoc]
      · split at h
        · next rb hsrb =>
            cases h
            refine Or.inr ⟨rb, hsrb, ?_, ?_⟩
            · rw [hsnd2, hsnd3]
            · rw [events_addSuccessorBlock, events_addSuccessorBlock, hsnd2, hsnd3,
                List.append_assoc]
              rfl
        · next hsrb =>
            cases h
            exact Or.inl ⟨hsrb, rfl⟩

theorem getBasicBlockTypeFromStmt_spec :
    ∀ body : List Stmt,
      getBasicBlockTypeFromStmt body = (BasicBlockType.UNKNOWN, none) ∨
      ∃ st, (getBasicBlockTypeFromStmt body).2 = some st ∧ st ∈ body ∧
        ((∃ a b2, st = Stmt.returnStmt a b2 ∧
            (getBasicBlockTypeFromStmt body).1 = BasicBlockType.RETURN_STMT) ∨
         (∃ a b2 c, st = Stmt.caseClause a b2 c ∧
            (getBasicBlockTypeFromStmt body).1 = BasicBlockType.CASE_CLAUSE) ∨
         (∃ a c, st = Stmt.switchStmt a c ∧
            (getBasicBlockTypeFromStmt body).1 = BasicBlockType.SWITCH_STATEMENT)) := by
  intro body
  induction body with
  | nil => exact Or.inl rfl
  | cons st rest ih =>
      cases st with
      | returnStmt a b2 =>
          exact Or.inr ⟨Stmt.returnStmt a b2, rfl, by simp, Or.inl ⟨a, b2, rfl, rfl⟩⟩
      | caseClause a b2 c =>
          exact Or.inr ⟨Stmt.caseClause a b2 c, rfl, by simp,
            Or.inr (Or.inl ⟨a, b2, c, rfl, rfl⟩)⟩
      | switchStmt a c =>
          exact Or.inr ⟨Stmt.switchStmt a c, rfl, by simp,
            Or.inr (Or.inr ⟨a, c, rfl, rfl⟩)⟩
      | goStmt a =>
          rcases ih with h1 | ⟨st2, h2, h3, h4⟩
          · exact Or.inl h1
          · exact Or.inr ⟨st2, h2, List.mem_cons_of_mem _ h3, h4⟩
      | ifStmt a b2 c =>
          rcases ih with h1 | ⟨st2, h2, h3, h4⟩
          · exact Or.inl h1
          · exact Or.inr ⟨st2, h2, List.mem_cons_of_mem _ h3, h4⟩
      | forStmt a b2 c =>
          rcases ih with h1 | ⟨st2, h2, h3, h4⟩
          · exact Or.inl h1
          · exact Or.inr ⟨st2, h2, List.mem_cons_of_mem _ h3, h4⟩
      | typeSwitchStmt a c =>
          rcases ih with h1 | ⟨st2, h2, h3, h4⟩
          · exact Or.inl h1
          · exact Or.inr ⟨st2, h2, List.mem_cons_of_mem _ h3, h4⟩
      | selectStmt a c =>
          rcases ih with h1 | ⟨st2, h2, h3, h4⟩
          · exact Or.inl h1
          · exact Or.inr ⟨st2, h2, List.mem_cons_of_mem _ h3, h4⟩
      | commClause a b2 c =>
          rcases ih with h1 | ⟨st2, h2, h3, h4⟩
          · exact Or.inl h1
          · exact Or.inr ⟨st2, h2, List.mem_cons_of_mem _ h3, h4⟩
      | otherStmt a c =>
          rcases ih with h1 | ⟨st2, h2, h3, h4⟩
          · exact Or.inl h1
          · exact Or.inr ⟨st2, h2, List.mem_cons_of_mem _ h3, h4⟩

unseal visitStmt visitClause visitList walkStmt walkList

/-- Claim C1: the spec asserts that the Builder completes without failure on
every syntactically valid AST, explicitly including an if statement that has
no else clause.  The code dereferences the nil `Else` field
(`t.Else.Pos()`), so the traversal of a function whose body is an if with no
else clause fails with a nil-pointer panic: the claim is right about the
intent and the code crashes, a code bug.  This theorem evaluates the full
pipeline at that failing input. -/
theorem C1_builder_crashes_on_if_without_else :
    getBasicBlocksFromAST [Decl.funcDecl "f" 1 3 (some [Stmt.ifStmt 2 [] none])] =
      Except.error VisitError.nilDeref := by rfl

/-- Claim C2, counterexample: for an if statement with no else clause the
visit does not emit the claimed `ELSE_CONDITION`/`ELSE_BODY` blocks at the
if's closing brace — it fails with a nil dereference of the `Else` field, so
no state (and no block emission) results at all. -/
theorem C2_counterexample_if_without_else :
    visitStmt initialVisitor (Stmt.ifStmt 1 [] none) =
      Except.error VisitError.nilDeref := by rfl

/-- Claim C2 (amended): for every if statement that has an else clause,
visiting it emits an `IF_CONDITION` block at the if's position, an
`ELSE_CONDITION` block at the else clause's start and an `ELSE_BODY` block
at the else clause's end, adds the edge `IF_CONDITION -> ELSE_BODY`,
recurses into the then body, and afterwards, exactly when a return target is
active, adds the edges `ELSE_CONDITION -> return_target` and
`ELSE_BODY -> return_target`.  An if with no else clause instead fails with
a nil dereference (see the counterexample). -/
theorem C2_if_emits_blocks_and_edges (s : VState) (p : Nat) (body : List Stmt)
    (ep ee : Nat) (s' : VState)
    (h : visitStmt s (Stmt.ifStmt p body (some (ep, ee))) = Except.ok s') :
    ∃ s4 s5 d, visitList s4 body = Except.ok s5 ∧
      s4.events = s.events ++ [Event.emit BasicBlockType.IF_CONDITION p,
        Event.emit BasicBlockType.ELSE_CONDITION ep, Event.emit BasicBlockType.ELSE_BODY ee,
        Event.edge p ee] ∧
      s5.events = s4.events ++ d ∧
      ((s5.returnBlock = none ∧ s' = s5) ∨
        ∃ rb, s5.returnBlock = some rb ∧
          s' = addSuccessorBlock (addSuccessorBlock s5 ep rb) ee rb ∧
          s'.events = s5.events ++ [Event.edge ep rb, Event.edge ee rb]) :=
  visitStmt_ifStmt_spec s p body ep ee s' h

theorem C2_witness :
    (visitStmt initialVisitor (Stmt.ifStmt 1 [] (some (2, 3)))).isOk = true ∧
    ∃ s4 s5 d, visitList s4 [] = Except.ok s5 ∧
      s4.events = initialVisitor.events ++ [Event.emit BasicBlockType.IF_CONDITION 1,
        Event.emit BasicBlockType.ELSE_CONDITION 2, Event.emit BasicBlockType.ELSE_BODY 3,
        Event.edge 1 3] ∧
      s5.events = s4.events ++ d ∧
      ((s5.returnBlock = none ∧ (VState.mk [(1, BasicBlock.mk (-1) BasicBlockType.IF_CONDITION 1 (some 3) [3] ""), (2, BasicBlock.mk (-1) BasicBlockType.ELSE_CONDITION 2 none [] ""), (3, BasicBlock.mk (-1) BasicBlockType.ELSE_BODY 3 none [] "")] (some 3) none none none none [Event.emit BasicBlockType.IF_CONDITION 1, Event.emit BasicBlockType.ELSE_CONDITION 2, Event.emit BasicBlockType.ELSE_BODY 3, Event.edge 1 3]) = s5) ∨
        ∃ rb, s5.returnBlock = some rb ∧
          (VState.mk [(1, BasicBlock.mk (-1) BasicBlockType.IF_CONDITION 1 (some 3) [3] ""), (2, BasicBlock.mk (-1) BasicBlockType.ELSE_CONDITION 2 none [] ""), (3, BasicBlock.mk (-1) BasicBlockType.ELSE_BODY 3 none [] "")] (some 3) none none none none [Event.emit BasicBlockType.IF_CONDITION 1, Event.emit BasicBlockType.ELSE_CONDITION 2, Event.emit BasicBlockType.ELSE_BODY 3, Event.edge 1 3]) = addSuccessorBlock (addSuccessorBlock s5 2 rb) 3 rb ∧
          (VState.mk [(1, BasicBlock.mk (-1) BasicBlockType.IF_CONDITION 1 (some 3) [3] ""), (2, BasicBlock.mk (-1) BasicBlockType.ELSE_CONDITION 2 none [] ""), (3, BasicBlock.mk (-1) BasicBlockType.ELSE_BODY 3 none [] "")] (some 3) none none none none [Event.emit BasicBlockType.IF_CONDITION 1, Event.emit BasicBlockType.ELSE_CONDITION 2, Event.emit BasicBlockType.ELSE_BODY 3, Event.edge 1 3]).events = s5.events ++ [Event.edge 2 rb, Event.edge 3 rb]) :=
  ⟨by rfl, C2_if_emits_blocks_and_edges initialVisitor 1 [] 2 3 (VState.mk [(1, BasicBlock.mk (-1) BasicBlockType.IF_CONDITION 1 (some 3) [3] ""), (2, BasicBlock.mk (-1) BasicBlockType.ELSE_CONDITION 2 none [] ""), (3, BasicBlock.mk (-1) BasicBlockType.ELSE_BODY 3 none [] "")] (some 3) none none none none [Event.emit BasicBlockType.IF_CONDITION 1, Event.emit BasicBlockType.ELSE_CONDITION 2, Event.emit BasicBlockType.ELSE_BODY 3, Event.edge 1 3]) (by rfl)⟩

/-- Claim C3: in the pass that `GetBasicBlocksFromSourceCode` runs after the
traversal, every block of the finalized sequence except the last gains an
edge to the immediately following block exactly when its kind is none of
`FOR_BODY, ELSE_CONDITION, ELSE_BODY, COMM_CLAUSE, CASE_CLAUSE,
RETURN_STMT`; in particular a `RETURN_STMT` block is never a sequential-edge
source in this pass. -/
theorem C3_sequential_edge_filter (bs : List BasicBlock) (i : Nat)
    (h1 : i < (addSequentialEdges bs).length) (h2 : i < bs.length)
    (h3 : i + 1 < bs.length) :
    (addSequentialEdges bs).length = bs.length ∧
    ((addSequentialEdges bs).get ⟨i, h1⟩ =
      if isSequentialSource (bs.get ⟨i, h2⟩).type
      then addSuccessorInBlock (bs.get ⟨i, h2⟩) ((bs.get ⟨i + 1, h3⟩).endLine)
      else bs.get ⟨i, h2⟩) ∧
    ((bs.get ⟨i, h2⟩).type = BasicBlockType.RETURN_STMT →
      (addSequentialEdges bs).get ⟨i, h1⟩ = bs.get ⟨i, h2⟩) := by
  refine ⟨addSequentialEdges_length bs, addSequentialEdges_get bs i h1 h2 h3, ?_⟩
  intro hret
  rw [addSequentialEdges_get bs i h1 h2 h3]
  have hfalse : isSequentialSource (bs.get ⟨i, h2⟩).type = false := by rw [hret]; rfl
  rw [hfalse]
  simp

theorem C3_witness :
    (addSequentialEdges [newBasicBlock BasicBlockType.RETURN_STMT 4,
        newBasicBlock BasicBlockType.FUNCTION_ENTRY 9]).length =
      [newBasicBlock BasicBlockType.RETURN_STMT 4,
        newBasicBlock BasicBlockType.FUNCTION_ENTRY 9].length ∧
    ((addSequentialEdges [newBasicBlock BasicBlockType.RETURN_STMT 4,
        newBasicBlock BasicBlockType.FUNCTION_ENTRY 9]).get ⟨0, by decide⟩ =
      if isSequentialSource (([newBasicBlock BasicBlockType.RETURN_STMT 4,
          newBasicBlock BasicBlockType.FUNCTION_ENTRY 9].get ⟨0, by decide⟩)).type
      then addSuccessorInBlock ([newBasicBlock BasicBlockType.RETURN_STMT 4,
          newBasicBlock BasicBlockType.FUNCTION_ENTRY 9].get ⟨0, by decide⟩)
        (([newBasicBlock BasicBlockType.RETURN_STMT 4,
          newBasicBlock BasicBlockType.FUNCTION_ENTRY 9].get ⟨1, by decide⟩).endLine)
      else [newBasicBlock BasicBlockType.RETURN_STMT 4,
          newBasicBlock BasicBlockType.FUNCTION_ENTRY 9].get ⟨0, by decide⟩) ∧
    (([newBasicBlock BasicBlockType.RETURN_STMT 4,
        newBasicBlock BasicBlockType.FUNCTION_ENTRY 9].get ⟨0, by decide⟩).type =
      BasicBlockType.RETURN_STMT →
      (addSequentialEdges [newBasicBlock BasicBlockType.RETURN_STMT 4,
        newBasicBlock BasicBlockType.FUNCTION_ENTRY 9]).get ⟨0, by decide⟩ =
        [newBasicBlock BasicBlockType.RETURN_STMT 4,
          newBasicBlock BasicBlockType.FUNCTION_ENTRY 9].get ⟨0, by decide⟩) :=
  C3_sequential_edge_filter _ 0 (by decide) (by decide) (by decide)

/-- Claim C4, counterexample: the claim says every rebound back-reference is
restored to its entry value on exit from the subtree.  Visiting a switch
statement from the initial visitor (whose `switchBlock` is `none`) rebinds
`switchBlock` and exits with it still bound to the switch header (`some 5`),
not restored to `none`: the complete result state is computed here
explicitly. -/
theorem C4_counterexample_switch_rebinds :
    visitStmt initialVisitor (Stmt.switchStmt 5 []) =
      Except.ok (VState.mk [(5, BasicBlock.mk (-1) BasicBlockType.SWITCH_STATEMENT 5
        none [] "")] (some 5) none none none (some 5)
        [Event.emit BasicBlockType.SWITCH_STATEMENT 5]) := by rfl

/-- Claim C4 (amended): only the case/communication-clause visits save and
restore `switch_header` and `return_target` around their body recursion, and
the for visit restores `return_target` and clears `loop_header` (to nil, not
to its prior value) on exit; `switch_header` stays rebound after a
switch/type-switch/select visit, `return_target` is rebound persistently by
return statements and cleared by function-declaration exit, and
`loop_body_marker` is never written at all. -/
theorem C4_scoped_backreferences :
    (∀ (q e : Nat) (body : List Stmt) (s s' : VState),
        visitStmt s (Stmt.caseClause q e body) = Except.ok s' →
        s'.switchBlock = s.switchBlock ∧ s'.returnBlock = s.returnBlock) ∧
    (∀ (q e : Nat) (body : List Stmt) (s s' : VState),
        visitStmt s (Stmt.commClause q e body) = Except.ok s' →
        s'.switchBlock = s.switchBlock ∧ s'.returnBlock = s.returnBlock) ∧
    (∀ (p e : Nat) (body : List Stmt) (s s' : VState),
        visitStmt s (Stmt.forStmt p e body) = Except.ok s' →
        s'.returnBlock = s.returnBlock ∧ s'.forBlock = none) := by
  refine ⟨?_, ?_, ?_⟩
  · intro q e body s s' h
    simp only [visitStmt] at h
    obtain ⟨h1, h2, _⟩ := visitClause_spec s BasicBlockType.CASE_CLAUSE e body s' h
    exact ⟨h1, h2⟩
  · intro q e body s s' h
    simp only [visitStmt] at h
    obtain ⟨h1, h2, _⟩ := visitClause_spec s BasicBlockType.COMM_CLAUSE e body s' h
    exact ⟨h1, h2⟩
  · intro p e body s s' h
    obtain ⟨h1, h2, _⟩ := visitStmt_forStmt_spec s p e body s' h
    exact ⟨h1, h2⟩

theorem C4_witness :
    (VState.mk [(5, BasicBlock.mk (-1) BasicBlockType.CASE_CLAUSE 5 none [] "")]
        (some 5) none none none none
        [Event.emit BasicBlockType.CASE_CLAUSE 5]).switchBlock =
      initialVisitor.switchBlock ∧
    (VState.mk [(5, BasicBlock.mk (-1) BasicBlockType.CASE_CLAUSE 5 none [] "")]
        (some 5) none none none none
        [Event.emit BasicBlockType.CASE_CLAUSE 5]).returnBlock =
      initialVisitor.returnBlock :=
  C4_scoped_backreferences.1 4 5 [] initialVisitor
    (VState.mk [(5, BasicBlock.mk (-1) BasicBlockType.CASE_CLAUSE 5 none [] "")]
      (some 5) none none none none [Event.emit BasicBlockType.CASE_CLAUSE 5]) (by rfl)

/-- Claim C5: finalizing a registry of N blocks (with its invariant that
every block's end line equals its registry key and keys are distinct)
yields a sequence of N blocks whose `number` fields are exactly 0..N-1 in
order, i.e. the 0-based rank in ascending end-line order, with end lines
strictly increasing along the sequence. -/
theorem C5_numbering_dense_increasing (s : VState) (hnd : (blockKeys s).Nodup)
    (hline : ∀ p ∈ s.basicBlocks, p.2.endLine = p.1) :
    (getBasicBlocks s).length = s.basicBlocks.length ∧
    (getBasicBlocks s).map (fun b => b.number) =
      (List.range (getBasicBlocks s).length).map Int.ofNat ∧
    List.Chain' (fun a b => a.endLine < b.endLine) (getBasicBlocks s) := by
  have hperm := List.perm_insertionSort (fun a b : Nat => a ≤ b) (blockKeys s)
  have hall : ∀ k ∈ sortNat (blockKeys s), (lookupBlock s k).isSome = true :=
    fun k hk => mem_keys_lookup_isSome (hperm.mem_iff.mp hk)
  have hsortlen : (sortNat (blockKeys s)).length = s.basicBlocks.length := by
    rw [sortNat, List.length_insertionSort]
    exact List.length_map s.basicBlocks _
  have hlen1 : (getBasicBlocks s).length = s.basicBlocks.length := by
    show (numberBlocks s 0 (sortNat (blockKeys s))).length = s.basicBlocks.length
    rw [numberBlocks_length s (sortNat (blockKeys s)) 0 hall, hsortlen]
  refine ⟨hlen1, ?_, ?_⟩
  · show (numberBlocks s 0 (sortNat (blockKeys s))).map (fun b => b.number) =
      (List.range (getBasicBlocks s).length).map Int.ofNat
    rw [numberBlocks_map_number s (sortNat (blockKeys s)) 0 hall, ← List.range_eq_range',
      hsortlen, hlen1]
  · have hmape : (getBasicBlocks s).map (fun b => b.endLine) = sortNat (blockKeys s) :=
      numberBlocks_map_endLine s hline _ 0 hall
    have hsorted : List.Sorted (fun a b : Nat => a ≤ b) (sortNat (blockKeys s)) :=
      List.sorted_insertionSort _ _
    have hnd2 : (sortNat (blockKeys s)).Nodup := (hperm.nodup_iff).mpr hnd
    have hlt : List.Pairwise (fun a b : Nat => a < b) (sortNat (blockKeys s)) :=
      (hsorted.and hnd2).imp (fun hab => lt_of_le_of_ne hab.1 hab.2)
    have hchain : List.Chain' (fun a b : Nat => a < b)
        ((getBasicBlocks s).map (fun b => b.endLine)) := by
      rw [hmape]
      exact hlt.chain'
    exact (List.chain'_map _).mp hchain

theorem C5_witness :
    (blockKeys (VState.mk [(9, BasicBlock.mk (-1) BasicBlockType.FOR_STATEMENT 9 none [] ""),
        (2, BasicBlock.mk (-1) BasicBlockType.RETURN_STMT 2 none [] "")]
        none none none none none [])).Nodup ∧
    ((getBasicBlocks (VState.mk [(9, BasicBlock.mk (-1) BasicBlockType.FOR_STATEMENT 9
          none [] ""), (2, BasicBlock.mk (-1) BasicBlockType.RETURN_STMT 2 none [] "")]
        none none none none none [])).length = 2 ∧
      (getBasicBlocks (VState.mk [(9, BasicBlock.mk (-1) BasicBlockType.FOR_STATEMENT 9
          none [] ""), (2, BasicBlock.mk (-1) BasicBlockType.RETURN_STMT 2 none [] "")]
        none none none none none [])).map (fun b => b.number) = [0, 1]) := by
  refine ⟨by decide, ?_, by decide⟩
  have h := C5_numbering_dense_increasing (VState.mk [(9, BasicBlock.mk (-1)
    BasicBlockType.FOR_STATEMENT 9 none [] ""), (2, BasicBlock.mk (-1)
    BasicBlockType.RETURN_STMT 2 none [] "")] none none none none none [])
    (by decide) (by decide)
  exact h.1

/-- Claim C6: `AddBasicBlock` at an already-registered end line overwrites
the registered block's kind, successor set and function name with the fresh
block's data (kind `bt`, empty successors, empty function name) and returns
the registered line, leaving every other line and the registry size
unchanged; at a fresh end line it appends a new block instead.  Hence two
statements ending on the same line collapse into one block reflecting only
the later visit. -/
theorem C6_registry_overwrite (s : VState) (bt : BasicBlockType) (line : Nat) :
    (addBasicBlock s bt line).2 = line ∧
    lookupBlock (addBasicBlock s bt line).1 line = some (newBasicBlock bt line) ∧
    (∀ l, l ≠ line → lookupBlock (addBasicBlock s bt line).1 l = lookupBlock s l) ∧
    ((lookupBlock s line).isSome = true →
      ((addBasicBlock s bt line).1).basicBlocks.length = s.basicBlocks.length) ∧
    (lookupBlock s line = none →
      ((addBasicBlock s bt line).1).basicBlocks =
        s.basicBlocks ++ [(line, newBasicBlock bt line)]) := by
  refine ⟨addBasicBlock_snd s bt line, lookupBlock_addBasicBlock_self s bt line,
    fun l hl => lookupBlock_addBasicBlock_ne s bt line l hl, ?_, ?_⟩
  · intro hsome
    rw [length_addBasicBlock, if_pos hsome]
  · intro hnone
    unfold addBasicBlock
    rw [hnone]

theorem C6_witness :
    (addBasicBlock (VState.mk [(7, BasicBlock.mk 0 BasicBlockType.RETURN_STMT 7
        (some 9) [9] "g")] none none none none none []) BasicBlockType.IF_CONDITION 7).2 =
      7 ∧
    lookupBlock (addBasicBlock (VState.mk [(7, BasicBlock.mk 0 BasicBlockType.RETURN_STMT 7
        (some 9) [9] "g")] none none none none none [])
        BasicBlockType.IF_CONDITION 7).1 7 =
      some (newBasicBlock BasicBlockType.IF_CONDITION 7) ∧
    (∀ l, l ≠ 7 →
      lookupBlock (addBasicBlock (VState.mk [(7, BasicBlock.mk 0 BasicBlockType.RETURN_STMT 7
          (some 9) [9] "g")] none none none none none [])
          BasicBlockType.IF_CONDITION 7).1 l =
        lookupBlock (VState.mk [(7, BasicBlock.mk 0 BasicBlockType.RETURN_STMT 7
          (some 9) [9] "g")] none none none none none []) l) ∧
    ((lookupBlock (VState.mk [(7, BasicBlock.mk 0 BasicBlockType.RETURN_STMT 7
        (some 9) [9] "g")] none none none none none []) 7).isSome = true →
      ((addBasicBlock (VState.mk [(7, BasicBlock.mk 0 BasicBlockType.RETURN_STMT 7
          (some 9) [9] "g")] none none none none none [])
          BasicBlockType.IF_CONDITION 7).1).basicBlocks.length =
        (VState.mk [(7, BasicBlock.mk 0 BasicBlockType.RETURN_STMT 7
          (some 9) [9] "g")] none none none none none []).basicBlocks.length) ∧
    (lookupBlock (VState.mk [(7, BasicBlock.mk 0 BasicBlockType.RETURN_STMT 7
        (some 9) [9] "g")] none none none none none []) 7 = none →
      ((addBasicBlock (VState.mk [(7, BasicBlock.mk 0 BasicBlockType.RETURN_STMT 7
          (some 9) [9] "g")] none none none none none [])
          BasicBlockType.IF_CONDITION 7).1).basicBlocks =
        (VState.mk [(7, BasicBlock.mk 0 BasicBlockType.RETURN_STMT 7
          (some 9) [9] "g")] none none none none none []).basicBlocks ++
          [(7, newBasicBlock BasicBlockType.IF_CONDITION 7)]) :=
  C6_registry_overwrite (VState.mk [(7, BasicBlock.mk 0 BasicBlockType.RETURN_STMT 7
    (some 9) [9] "g")] none none none none none []) BasicBlockType.IF_CONDITION 7

/-- Claim C7, counterexample: the claim is stated for every for statement,
but a for statement nested inside another for statement crashes the
traversal instead of restoring the saved target and adding a back edge: the
inner loop clears the loop-header reference on exit, so the outer loop's
back-edge step dereferences nil. -/
theorem C7_counterexample_nested_for :
    visitStmt initialVisitor (Stmt.forStmt 1 4 [Stmt.forStmt 2 3 []]) =
      Except.error VisitError.nilDeref := by rfl

/-- Claim C7 (amended): restricted to for-statement visits that complete
without crashing, the claimed behavior holds: the return target is saved,
rebound to the FOR_STATEMENT header (line p) during the body traversal, and
restored afterwards; if after the body the most recent block is still the
header (kind FOR_STATEMENT), a FOR_BODY block is synthesized at the for
statement's end line e and edged back to the loop header; if the most recent
block has kind RETURN_STMT no back edge is added; otherwise a back edge from
the most recent block to the loop header is added. -/
theorem C7_for_loop_discipline (s : VState) (p e : Nat) (body : List Stmt) (s' : VState)
    (h : visitStmt s (Stmt.forStmt p e body) = Except.ok s') :
    s'.returnBlock = s.returnBlock ∧ s'.forBlock = none ∧
    ∃ s4 s5 lb, visitList s4 body = Except.ok s5 ∧
      s4.returnBlock = some p ∧ s4.forBlock = some p ∧
      (∃ d, s4.events = s.events ++ Event.emit BasicBlockType.FOR_STATEMENT p :: d) ∧
      s5.lastBlock = some lb ∧
      ((typeAt s5 lb = some BasicBlockType.RETURN_STMT → s'.events = s5.events) ∧
       (typeAt s5 lb = some BasicBlockType.FOR_STATEMENT →
         ∃ fl, s5.forBlock = some fl ∧
           s'.events = s5.events ++ [Event.emit BasicBlockType.FOR_BODY e, Event.edge e fl]) ∧
       ((typeAt s5 lb ≠ some BasicBlockType.RETURN_STMT ∧
         typeAt s5 lb ≠ some BasicBlockType.FOR_STATEMENT) →
         ∃ fl, s5.forBlock = some fl ∧ s'.events = s5.events ++ [Event.edge lb fl])) :=
  visitStmt_forStmt_spec s p e body s' h

theorem C7_witness :
    visitStmt initialVisitor (Stmt.forStmt 1 2 []) = Except.ok (VState.mk [(1, BasicBlock.mk (-1) BasicBlockType.FOR_STATEMENT 1 none [] ""), (2, BasicBlock.mk (-1) BasicBlockType.FOR_BODY 2 (some 1) [1] "")] (some 2) none none none none [Event.emit BasicBlockType.FOR_STATEMENT 1, Event.emit BasicBlockType.FOR_BODY 2, Event.edge 2 1]) ∧
    ((VState.mk [(1, BasicBlock.mk (-1) BasicBlockType.FOR_STATEMENT 1 none [] ""), (2, BasicBlock.mk (-1) BasicBlockType.FOR_BODY 2 (some 1) [1] "")] (some 2) none none none none [Event.emit BasicBlockType.FOR_STATEMENT 1, Event.emit BasicBlockType.FOR_BODY 2, Event.edge 2 1]).returnBlock = initialVisitor.returnBlock ∧
     (VState.mk [(1, BasicBlock.mk (-1) BasicBlockType.FOR_STATEMENT 1 none [] ""), (2, BasicBlock.mk (-1) BasicBlockType.FOR_BODY 2 (some 1) [1] "")] (some 2) none none none none [Event.emit BasicBlockType.FOR_STATEMENT 1, Event.emit BasicBlockType.FOR_BODY 2, Event.edge 2 1]).forBlock = none ∧
     ∃ s4 s5 lb, visitList s4 [] = Except.ok s5 ∧
       s4.returnBlock = some 1 ∧ s4.forBlock = some 1 ∧
       (∃ d, s4.events = initialVisitor.events ++
         Event.emit BasicBlockType.FOR_STATEMENT 1 :: d) ∧
       s5.lastBlock = some lb ∧
       ((typeAt s5 lb = some BasicBlockType.RETURN_STMT →
           (VState.mk [(1, BasicBlock.mk (-1) BasicBlockType.FOR_STATEMENT 1 none [] ""), (2, BasicBlock.mk (-1) BasicBlockType.FOR_BODY 2 (some 1) [1] "")] (some 2) none none none none [Event.emit BasicBlockType.FOR_STATEMENT 1, Event.emit BasicBlockType.FOR_BODY 2, Event.edge 2 1]).events = s5.events) ∧
        (typeAt s5 lb = some BasicBlockType.FOR_STATEMENT →
          ∃ fl, s5.forBlock = some fl ∧
            (VState.mk [(1, BasicBlock.mk (-1) BasicBlockType.FOR_STATEMENT 1 none [] ""), (2, BasicBlock.mk (-1) BasicBlockType.FOR_BODY 2 (some 1) [1] "")] (some 2) none none none none [Event.emit BasicBlockType.FOR_STATEMENT 1, Event.emit BasicBlockType.FOR_BODY 2, Event.edge 2 1]).events = s5.events ++
              [Event.emit BasicBlockType.FOR_BODY 2, Event.edge 2 fl]) ∧
        ((typeAt s5 lb ≠ some BasicBlockType.RETURN_STMT ∧
          typeAt s5 lb ≠ some BasicBlockType.FOR_STATEMENT) →
          ∃ fl, s5.forBlock = some fl ∧
            (VState.mk [(1, BasicBlock.mk (-1) BasicBlockType.FOR_STATEMENT 1 none [] ""), (2, BasicBlock.mk (-1) BasicBlockType.FOR_BODY 2 (some 1) [1] "")] (some 2) none none none none [Event.emit BasicBlockType.FOR_STATEMENT 1, Event.emit BasicBlockType.FOR_BODY 2, Event.edge 2 1]).events = s5.events ++ [Event.edge lb fl]))) :=
  ⟨by rfl, C7_for_loop_discipline initialVisitor 1 2 [] (VState.mk [(1, BasicBlock.mk (-1) BasicBlockType.FOR_STATEMENT 1 none [] ""), (2, BasicBlock.mk (-1) BasicBlockType.FOR_BODY 2 (some 1) [1] "")] (some 2) none none none none [Event.emit BasicBlockType.FOR_STATEMENT 1, Event.emit BasicBlockType.FOR_BODY 2, Event.edge 2 1]) (by rfl)⟩

/-- Claim C8: a case clause or communication clause determines its block by
scanning its body with `GetBasicBlockTypeFromStmt`: the first emitted block
of the clause visit carries the kind and position of the first return, case
clause, or switch statement found in the body, or the generic
CASE_CLAUSE/COMM_CLAUSE kind at the clause's end position when the scan
finds none; and the scan itself is sound: it returns UNKNOWN with no
statement, or a statement of the body whose shape matches the returned
kind. -/
theorem C8_clause_kind_scan :
    (∀ (q e : Nat) (body : List Stmt) (s s' : VState),
        visitStmt s (Stmt.caseClause q e body) = Except.ok s' →
        ∃ d, s'.events = s.events ++ (match getBasicBlockTypeFromStmt body with
          | (bt, some st) => Event.emit bt (stmtPos st)
          | (_, none) => Event.emit BasicBlockType.CASE_CLAUSE e) :: d) ∧
    (∀ (q e : Nat) (body : List Stmt) (s s' : VState),
        visitStmt s (Stmt.commClause q e body) = Except.ok s' →
        ∃ d, s'.events = s.events ++ (match getBasicBlockTypeFromStmt body with
          | (bt, some st) => Event.emit bt (stmtPos st)
          | (_, none) => Event.emit BasicBlockType.COMM_CLAUSE e) :: d) ∧
    (∀ body : List Stmt,
        getBasicBlockTypeFromStmt body = (BasicBlockType.UNKNOWN, none) ∨
        ∃ st, (getBasicBlockTypeFromStmt body).2 = some st ∧ st ∈ body ∧
          ((∃ a b2, st = Stmt.returnStmt a b2 ∧
              (getBasicBlockTypeFromStmt body).1 = BasicBlockType.RETURN_STMT) ∨
           (∃ a b2 c, st = Stmt.caseClause a b2 c ∧
              (getBasicBlockTypeFromStmt body).1 = BasicBlockType.CASE_CLAUSE) ∨
           (∃ a c, st = Stmt.switchStmt a c ∧
              (getBasicBlockTypeFromStmt body).1 = BasicBlockType.SWITCH_STATEMENT))) := by
  refine ⟨?_, ?_, getBasicBlockTypeFromStmt_spec⟩
  · intro q e body s s' h
    simp only [visitStmt] at h
    exact (visitClause_spec s BasicBlockType.CASE_CLAUSE e body s' h).2.2
  · intro q e body s s' h
    simp only [visitStmt] at h
    exact (visitClause_spec s BasicBlockType.COMM_CLAUSE e body s' h).2.2

theorem C8_witness :
    ∃ d, (VState.mk [(6, BasicBlock.mk (-1) BasicBlockType.RETURN_STMT 6 none [] "")] (some 6) none none none none [Event.emit BasicBlockType.RETURN_STMT 6, Event.emit BasicBlockType.RETURN_STMT 6]).events = initialVisitor.events ++
      (match getBasicBlockTypeFromStmt [Stmt.returnStmt 6 7] with
        | (bt, some st) => Event.emit bt (stmtPos st)
        | (_, none) => Event.emit BasicBlockType.CASE_CLAUSE 5) :: d :=
  C8_clause_kind_scan.1 4 5 [Stmt.returnStmt 6 7] initialVisitor (VState.mk [(6, BasicBlock.mk (-1) BasicBlockType.RETURN_STMT 6 none [] "")] (some 6) none none none none [Event.emit BasicBlockType.RETURN_STMT 6, Event.emit BasicBlockType.RETURN_STMT 6]) (by rfl)

/-- Claim C9: whenever the full pipeline succeeds, every successor line of
every returned block is the end line of some block in the returned sequence:
no dangling edges, because the visitor invariant keeps every recorded
successor registered, registration is never lost (overwrites keep the line),
and the finalized sequence covers exactly the registered lines. -/
theorem C9_no_dangling_edges (ds : List Decl) (out : List BasicBlock)
    (h : getBasicBlocksFromAST ds = Except.ok out) :
    ∀ b ∈ out, ∀ l ∈ b.successor, ∃ b2 ∈ out, b2.endLine = l := by
  unfold getBasicBlocksFromAST at h
  split at h
  · exact absurd h (by simp)
  · next s hwalk =>
      rw [Except.ok.injEq] at h
      subst h
      have hinv : Inv s :=
        (walkFile_stepOK ds initialVisitor s hwalk).2.2 inv_initialVisitor
      have hline := hinv.1
      have hsuccinv := hinv.2.1
      have hperm := List.perm_insertionSort (fun a b : Nat => a ≤ b) (blockKeys s)
      have hall : ∀ k ∈ sortNat (blockKeys s), (lookupBlock s k).isSome = true :=
        fun k hk => mem_keys_lookup_isSome (hperm.mem_iff.mp hk)
      have hmape : (getBasicBlocks s).map (fun b => b.endLine) = sortNat (blockKeys s) :=
        numberBlocks_map_endLine s hline (sortNat (blockKeys s)) 0 hall
      have hcover : ∀ l ∈ blockKeys s,
          ∃ b2 ∈ addSequentialEdges (getBasicBlocks s), b2.endLine = l := by
        intro l hl
        have hl2 : l ∈ (addSequentialEdges (getBasicBlocks s)).map (fun b => b.endLine) := by
          rw [addSequentialEdges_map_endLine, hmape]
          exact hperm.mem_iff.mpr hl
        obtain ⟨b2, hb2, he⟩ := List.mem_map.mp hl2
        exact ⟨b2, hb2, he⟩
      intro b hb l hl
      obtain ⟨b0, hb0, _, hls⟩ := mem_addSequentialEdges (getBasicBlocks s) b hb
      rcases hls l hl with hcase | hcase
      · obtain ⟨k, _, borig, hlook, hsucc0, _⟩ := mem_numberBlocks hb0
        obtain ⟨p, hp, _, hpb⟩ := lookup_sound hlook
        have hlb : l ∈ borig.successor := hsucc0 ▸ hcase
        exact hcover l (hsuccinv p hp l (by rw [hpb]; exact hlb))
      · rw [hmape] at hcase
        exact hcover l (hperm.mem_iff.mp hcase)

theorem C9_witness :
    getBasicBlocksFromAST [Decl.funcDecl "f" 1 2 (some [])] =
      Except.ok ([BasicBlock.mk 0 BasicBlockType.FUNCTION_ENTRY 1 (some 2) [2] "f", BasicBlock.mk 1 BasicBlockType.RETURN_STMT 2 none [] ""]) ∧
    (∀ b ∈ ([BasicBlock.mk 0 BasicBlockType.FUNCTION_ENTRY 1 (some 2) [2] "f", BasicBlock.mk 1 BasicBlockType.RETURN_STMT 2 none [] ""]), ∀ l ∈ b.successor, ∃ b2 ∈ ([BasicBlock.mk 0 BasicBlockType.FUNCTION_ENTRY 1 (some 2) [2] "f", BasicBlock.mk 1 BasicBlockType.RETURN_STMT 2 none [] ""]), b2.endLine = l) :=
  ⟨by rfl, C9_no_dangling_edges [Decl.funcDecl "f" 1 2 (some [])] ([BasicBlock.mk 0 BasicBlockType.FUNCTION_ENTRY 1 (some 2) [2] "f", BasicBlock.mk 1 BasicBlockType.RETURN_STMT 2 none [] ""]) (by rfl)⟩

/-- Claim C10, counterexample: the claim says a source with no function
declarations yields an empty block sequence, but a declaration that is not a
function declaration can still contain statements (a function literal in a
var declaration): the walk descends into them, and a return statement there
produces a RETURN_STMT block, so the returned sequence is nonempty. -/
theorem C10_counterexample_funclit_in_decl :
    getBasicBlocksFromAST [Decl.genDecl [Stmt.returnStmt 2 2]] =
      Except.ok [BasicBlock.mk 0 BasicBlockType.RETURN_STMT 2 none [] ""] := by rfl

/-- Claim C10 (amended): a file whose declarations carry no statements at
all (no function declarations and no statement-bearing nested literals)
yields an empty block sequence with no error. -/
theorem C10_no_funcdecl_empty (ds : List Decl) (h : ∀ d ∈ ds, d = Decl.genDecl []) :
    getBasicBlocksFromAST ds = Except.ok [] := by
  have key : ∀ (ds2 : List Decl), (∀ d ∈ ds2, d = Decl.genDecl []) →
      ∀ s : VState, walkFile s ds2 = Except.ok s := by
    intro ds2
    induction ds2 with
    | nil => intro _ s; rfl
    | cons d rest ih =>
        intro hall s
        have hd := hall d (by simp)
        subst hd
        show walkFile s (Decl.genDecl [] :: rest) = Except.ok s
        simp only [walkFile, walkDecl, walkList]
        exact ih (fun d2 hd2 => hall d2 (by simp [hd2])) s
  unfold getBasicBlocksFromAST
  rw [key ds h initialVisitor]
  rfl

theorem C10_witness :
    (∀ d ∈ [Decl.genDecl []], d = Decl.genDecl []) ∧
    getBasicBlocksFromAST [Decl.genDecl []] = Except.ok [] :=
  ⟨by simp, C10_no_funcdecl_empty [Decl.genDecl []] (by simp)⟩

end GoAnalysis
